import Mathlib

/-!
Verification of the streaming character-encoding conversion engine of
`src/modules/javafx.web/src/main/native/Source/ThirdParty/libxml/src/encoding.c`.

Conversion functions follow the C calling convention
`int f(unsigned char *out, int *outlen, const unsigned char *in, int *inlen)`:
we model a call as a Lean function from the output capacity (`*outlen` on
entry) and the input byte list (`in` with `*inlen` on entry) to a triple
`(ret, consumed, output)` where `ret` is the C return value (a produced
byte count when non-negative, an `XML_ENC_ERR` code when negative),
`consumed` is `*inlen` on exit and `output` the bytes written (`*outlen`
on exit equals `output.length`).
-/

/-- Modelled from the spec: error taxonomy of §7 (the `xmlCharEncError`
enum lives in a header that is not part of the examined sources).  Only the
sign (negative) and mutual distinctness of the codes are relied upon by
`encoding.c`. -/
def XML_ENC_ERR_SUCCESS : Int := 0

/-- Modelled from the spec: destination buffer exhausted. -/
def XML_ENC_ERR_SPACE : Int := -1

/-- Modelled from the spec: malformed or unencodable input. -/
def XML_ENC_ERR_INPUT : Int := -2

/-- Modelled from the spec: incomplete trailing multi-byte sequence. -/
def XML_ENC_ERR_PARTIAL : Int := -3

/-- Modelled from the spec: contract violation, fatal to the call. -/
def XML_ENC_ERR_INTERNAL : Int := -4

/-- Modelled from the spec: allocation failure. -/
def XML_ENC_ERR_MEMORY : Int := -5

/-- Loop of `asciiToUTF8` (encoding.c:96-125).  `outcap` is the entry value
of `*outlen`, `acc` the bytes written so far (`out - outstart`), `consumed`
the value `processed - base`.  The C loop runs while
`(in < inend) && (out - outstart + 5 < *outlen)`; inside, `if (out >= outend)
break;` precedes the ASCII test. -/
def asciiToUTF8go (outcap : Nat) (acc : List Nat) (consumed : Nat) :
    List Nat → Int × Nat × List Nat
  | [] => (Int.ofNat acc.length, consumed, acc)
  | c :: rest =>
    if acc.length + 5 < outcap then
      if acc.length ≥ outcap then (Int.ofNat acc.length, consumed, acc)
      else if c < 0x80 then asciiToUTF8go outcap (acc ++ [c]) (consumed + 1) rest
      else ( XML_ENC_ERR_INPUT, consumed, acc)
    else (Int.ofNat acc.length, consumed, acc)

/-- Model of `asciiToUTF8` (encoding.c:96-125). -/
def asciiToUTF8 (outcap : Nat) (inb : List Nat) : Int × Nat × List Nat :=
  asciiToUTF8go outcap [] 0 inb

/-- The canonical encoding tags returned by detection
(the `xmlCharEncoding` values used in encoding.c:864-917). -/
inductive XmlCharEncoding where
  | NONE | UCS4BE | UCS4LE | UCS4_2143 | UCS4_3412 | EBCDIC
  | UTF8 | UTF16LE | UTF16BE
  deriving DecidableEq, Repr

/-- The `len >= 3` and `len >= 2` trailing checks of `xmlDetectCharEncoding`
(encoding.c:900-916): UTF-8 BOM, then UTF-16 BE/LE BOMs, else `NONE`. -/
def xmlDetectCharEncodingBOM (inb : List Nat) : XmlCharEncoding :=
  if inb.length ≥ 3 ∧ inb[0]! = 0xEF ∧ inb[1]! = 0xBB ∧ inb[2]! = 0xBF then
    .UTF8
  else if inb.length ≥ 2 ∧ inb[0]! = 0xFE ∧ inb[1]! = 0xFF then .UTF16BE
  else if inb.length ≥ 2 ∧ inb[0]! = 0xFF ∧ inb[1]! = 0xFE then .UTF16LE
  else .NONE

/-- Model of `xmlDetectCharEncoding` (encoding.c:864-917): pure classification of the
leading bytes.  The `in == NULL` guard is represented by the caller passing
the available bytes as a list; `len` is the list length. -/
def xmlDetectCharEncoding (inb : List Nat) : XmlCharEncoding :=
  if inb.length ≥ 4 then
    if inb[0]! = 0x00 ∧ inb[1]! = 0x00 ∧ inb[2]! = 0x00 ∧ inb[3]! = 0x3C then
      .UCS4BE
    else if inb[0]! = 0x3C ∧ inb[1]! = 0x00 ∧ inb[2]! = 0x00 ∧ inb[3]! = 0x00 then
      .UCS4LE
    else if inb[0]! = 0x00 ∧ inb[1]! = 0x00 ∧ inb[2]! = 0x3C ∧ inb[3]! = 0x00 then
      .UCS4_2143
    else if inb[0]! = 0x00 ∧ inb[1]! = 0x3C ∧ inb[2]! = 0x00 ∧ inb[3]! = 0x00 then
      .UCS4_3412
    else if inb[0]! = 0x4C ∧ inb[1]! = 0x6F ∧ inb[2]! = 0xA7 ∧ inb[3]! = 0x94 then
      .EBCDIC
    else if inb[0]! = 0x3C ∧ inb[1]! = 0x3F ∧ inb[2]! = 0x78 ∧ inb[3]! = 0x6D then
      .UTF8
    else if inb[0]! = 0x3C ∧ inb[1]! = 0x00 ∧ inb[2]! = 0x3F ∧ inb[3]! = 0x00 then
      .UTF16LE
    else if inb[0]! = 0x00 ∧ inb[1]! = 0x3C ∧ inb[2]! = 0x00 ∧ inb[3]! = 0x3F then
      .UTF16BE
    else xmlDetectCharEncodingBOM inb
  else xmlDetectCharEncodingBOM inb

/-- ASCII uppercasing as done by `toupper` on the alias strings
(encoding.c:962-966 and 998-1002). -/
def cToUpper (c : Char) : Char :=
  if 'a' ≤ c ∧ c ≤ 'z' then Char.ofNat (c.toNat - 32) else c

/-- The `upper` buffer computation of `xmlGetEncodingAlias` /
`xmlAddEncodingAlias`: uppercase the first at most 99 characters. -/
def upperAlias (s : String) : String :=
  String.mk ((s.toList.take 99).map cToUpper)

/-- The alias registry `xmlCharEncodingAliases` as a list of
`(name, alias)` pairs in registration order. -/
def AliasTable := List (String × String)

/-- Model of `xmlGetEncodingAlias` (encoding.c:951-977): uppercase the argument and
return the name of the first entry whose stored alias matches exactly. -/
def xmlGetEncodingAlias (tbl : List (String × String)) (aliasName : String) :
    Option String :=
  let upper := upperAlias aliasName
  match tbl.find? (fun e => e.2 = upper) with
  | some e => some e.1
  | none => none

/-- Model of `xmlAddEncodingAlias` (encoding.c:989-1050): uppercase the alias; if an
entry with that stored alias exists, replace its name in place, else append
a new entry.  (The allocation-failure paths are not modelled.) -/
def xmlAddEncodingAlias (tbl : List (String × String)) (name aliasName : String) :
    List (String × String) :=
  let upper := upperAlias aliasName
  if tbl.any (fun e => e.2 = upper) then
    tbl.map (fun e => if e.2 = upper then (name, e.2) else e)
  else
    tbl ++ [(name, upper)]

/-- Model of `xmlDelEncodingAlias` (encoding.c:1060-1083): scan for an entry whose
stored alias matches the argument exactly (case-sensitively); remove the
first match and return the updated table, or `none` when absent (the C
function returns -1). -/
def xmlDelEncodingAlias (tbl : List (String × String)) (aliasName : String) :
    Option (List (String × String)) :=
  if tbl.any (fun e => e.2 = aliasName) then
    some (tbl.eraseP (fun e => e.2 = aliasName))
  else
    none

/-- Model of `MAX_ENCODING_HANDLERS` (encoding.c:1332). -/
def MAX_ENCODING_HANDLERS : Nat := 50

/-- Model of `xmlRegisterCharEncodingHandler` (encoding.c:1467-1489) acting on the
dynamic handler table, for an arbitrary handler type `H`.  Returns the new
table and `true` when the handler was inserted; when the table already
holds `MAX_ENCODING_HANDLERS` entries the handler is freed
(`goto free_handler`) and the table is left unchanged (`false`). -/
def xmlRegisterCharEncodingHandler {H : Type} (tbl : List H) (handler : H) :
    List H × Bool :=
  if tbl.length ≥ MAX_ENCODING_HANDLERS then (tbl, false)
  else (tbl ++ [handler], true)

/-- Model of `xmlEncInputChunk` (encoding.c:2183-2227), the built-in-handler branch
(`handler->input != NULL`): invoke the handler, and as built-in converters
do not signal `XML_ENC_ERR_SPACE` themselves, reclassify a non-negative
return — not all input consumed with output produced is `SPACE`, with no
output `PARTIAL`, otherwise `SUCCESS`; finally partial errors are ignored
when reading (`PARTIAL` becomes `SUCCESS`). -/
def xmlEncInputChunk (input : Nat → List Nat → Int × Nat × List Nat)
    (outcap : Nat) (inb : List Nat) : Int × Nat × List Nat :=
  let oldinlen := inb.length
  let r := input outcap inb
  let ret1 :=
    if 0 ≤ r.1 then
      if r.2.1 < oldinlen then
        if 0 < r.2.2.length then XML_ENC_ERR_SPACE else XML_ENC_ERR_PARTIAL
      else XML_ENC_ERR_SUCCESS
    else r.1
  let ret2 := if ret1 = XML_ENC_ERR_PARTIAL then XML_ENC_ERR_SUCCESS else ret1
  (ret2, r.2.1, r.2.2)

/-- Model of `xmlEncOutputChunk` (encoding.c:2243-2287), the built-in-handler branch
(`handler->output != NULL`): same reclassification as `xmlEncInputChunk`,
but partial sequences must not be generated when writing, so a final
`PARTIAL` becomes `INTERNAL`. -/
def xmlEncOutputChunk (output : Nat → List Nat → Int × Nat × List Nat)
    (outcap : Nat) (inb : List Nat) : Int × Nat × List Nat :=
  let oldinlen := inb.length
  let r := output outcap inb
  let ret1 :=
    if 0 ≤ r.1 then
      if r.2.1 < oldinlen then
        if 0 < r.2.2.length then XML_ENC_ERR_SPACE else XML_ENC_ERR_PARTIAL
      else XML_ENC_ERR_SUCCESS
    else r.1
  let ret2 := if ret1 = XML_ENC_ERR_PARTIAL then XML_ENC_ERR_INTERNAL else ret1
  (ret2, r.2.1, r.2.2)

example : xmlDetectCharEncoding [0x3C, 0x3F, 0x78, 0x6D] = .UTF8 := by decide
example : xmlDetectCharEncoding [0xFE, 0xFF] = .UTF16BE := by decide
example : xmlDetectCharEncoding [0xFF, 0xFE] = .UTF16LE := by decide
example : xmlDetectCharEncoding [0x00, 0x00, 0x00, 0x3C] = .UCS4BE := by decide
example : xmlDetectCharEncoding [] = .NONE := by decide
example : asciiToUTF8 4 [65, 66] = (0, 0, []) := by decide
example : asciiToUTF8 9 [65, 66, 67, 68, 69, 70] = (4, 4, [65, 66, 67, 68]) := by
  decide

/-- The UTF-8 continuation-byte loop shared by `UTF16LEToUTF8`
(encoding.c:489-493) and `UTF16BEToUTF8` (encoding.c:727-731), where the two
functions are textually identical:
`for ( ; bits >= 0; bits-= 6) { if (out >= outend) break;
*out++= ((c >> bits) & 0x3F) | 0x80; }`.
The loop variable `bits` runs through `6*(k-1), 6*(k-2), ..., 0`; `k` counts
the remaining iterations (`k = 0` corresponds to a negative initial `bits`,
for which the body never runs). -/
def utf8Cont (outcap : Nat) (acc : List Nat) (c : Nat) : Nat → List Nat
  | 0 => acc
  | k + 1 =>
    if acc.length ≥ outcap then acc
    else utf8Cont outcap (acc ++ [((c >>> (6 * k)) &&& 0x3F) ||| 0x80]) c k

/-- The UTF-8 emission block shared by `UTF16LEToUTF8` (encoding.c:484-493)
and `UTF16BEToUTF8` (encoding.c:722-731): write the lead byte for the range
of `c` (the caller has already checked `out < outend`), then run the
continuation loop (`bits = -6, 0, 6, 12` for the four ranges, i.e.
`k = 0, 1, 2, 3`). -/
def utf8Emit (outcap : Nat) (acc : List Nat) (c : Nat) : List Nat :=
  if c < 0x80 then acc ++ [c]
  else if c < 0x800 then
    utf8Cont outcap (acc ++ [((c >>> 6) &&& 0x1F) ||| 0xC0]) c 1
  else if c < 0x10000 then
    utf8Cont outcap (acc ++ [((c >>> 12) &&& 0x0F) ||| 0xE0]) c 2
  else utf8Cont outcap (acc ++ [((c >>> 18) &&& 0x07) ||| 0xF0]) c 3

/-- The conversion loop shared by `UTF16LEToUTF8` (encoding.c:447-495) and
`UTF16BEToUTF8` (encoding.c:685-733); the two functions differ only in how
the two bytes of a 16-bit unit are combined (`be = false`: first byte is the
low-order byte; `be = true`: first byte is the high-order byte — in the C
source this is the only difference between the two loops, each spelled for
both values of `xmlLittleEndian` with identical byte-level meaning).
The loop runs while `(in < inend) && (out - outstart + 5 < *outlen)`;
`acc` is the output written so far (`out - outstart` bytes), `consumed` is
`processed - inb` in bytes; the list argument always has even length (the
odd trailing byte is removed by the wrapper before the loop). -/
def utf16ToUTF8go (be : Bool) (outcap : Nat) (acc : List Nat)
    (consumed : Nat) : List Nat → Int × Nat × List Nat
  | b0 :: b1 :: rest =>
    if acc.length + 5 < outcap then
      let c := if be then (b0 <<< 8) ||| b1 else b0 + 256 * b1
      if c &&& 0xFC00 = 0xD800 then
        match rest with
        | d0 :: d1 :: rest2 =>
          let d := if be then (d0 <<< 8) ||| d1 else d0 + 256 * d1
          if d &&& 0xFC00 = 0xDC00 then
            let cp := (((c &&& 0x03FF) <<< 10) ||| (d &&& 0x03FF)) + 0x10000
            if acc.length ≥ outcap then (Int.ofNat acc.length, consumed, acc)
            else
              utf16ToUTF8go be outcap (utf8Emit outcap acc cp) (consumed + 4) rest2
          else ( XML_ENC_ERR_INPUT, consumed, acc)
        | _ => (Int.ofNat acc.length, consumed, acc)
      else
        if acc.length ≥ outcap then (Int.ofNat acc.length, consumed, acc)
        else utf16ToUTF8go be outcap (utf8Emit outcap acc c) (consumed + 2) rest
    else (Int.ofNat acc.length, consumed, acc)
  | _ => (Int.ofNat acc.length, consumed, acc)

/-- Model of `UTF16LEToUTF8` (encoding.c:425-499): an initial `*outlen == 0` returns
immediately with nothing consumed; an odd byte count is truncated
(`if ((*inlenb % 2) == 1) (*inlenb)--;`), then the loop runs. -/
def UTF16LEToUTF8 (outcap : Nat) (inb : List Nat) : Int × Nat × List Nat :=
  if outcap = 0 then (0, 0, [])
  else utf16ToUTF8go false outcap [] 0 (inb.take (2 * (inb.length / 2)))

/-- Model of `UTF16BEToUTF8` (encoding.c:663-737). -/
def UTF16BEToUTF8 (outcap : Nat) (inb : List Nat) : Int × Nat × List Nat :=
  if outcap = 0 then (0, 0, [])
  else utf16ToUTF8go true outcap [] 0 (inb.take (2 * (inb.length / 2)))

/-- The trailing-byte gathering loop shared by the `UTF8To*` converters
(e.g. encoding.c:561-566, 189-194):
`for ( ; trailing; trailing--) { if ((in >= inend) || (((d= *in++) & 0xC0)
!= 0x80)) break; c <<= 6; c |= d & 0x3F; }`.
Returns the accumulated value, the number of bytes read (a byte failing the
continuation test has still been read by `*in++`), and the remaining
input. -/
def utf8Gather (c : Nat) : Nat → List Nat → Nat × Nat × List Nat
  | 0, l => (c, 0, l)
  | _ + 1, [] => (c, 0, [])
  | t + 1, d :: rest =>
    if d &&& 0xC0 ≠ 0x80 then (c, 1, rest)
    else
      let r := utf8Gather ((c <<< 6) ||| (d &&& 0x3F)) t rest
      (r.1, r.2.1 + 1, r.2.2)

theorem utf8Gather_rest_le (c t : Nat) (l : List Nat) :
    (utf8Gather c t l).2.2.length ≤ l.length := by
  induction t generalizing c l with
  | zero => simp [utf8Gather]
  | succ t ih =>
    cases l with
    | nil => simp [utf8Gather]
    | cons d rest =>
      simp only [utf8Gather]
      split
      · simp
      · exact le_trans (ih _ _) (Nat.le_succ _)

/-- The shared lead-byte classification of the `UTF8To*` converters
(encoding.c:540-555 / 168-183): the initial value of `c` and the number of
trailing bytes, or `none` for the two `XML_ENC_ERR_INPUT` branches (a
trailing byte in leading position, or a byte `>= 0xF8`). -/
def utf8LeadParse (d : Nat) : Option (Nat × Nat) :=
  if d < 0x80 then some (d, 0)
  else if d < 0xC0 then none
  else if d < 0xE0 then some (d &&& 0x1F, 1)
  else if d < 0xF0 then some (d &&& 0x0F, 2)
  else if d < 0xF8 then some (d &&& 0x07, 3)
  else none

/-- Loop of `UTF8ToUTF16LE` (encoding.c:539-605), for a non-NULL input
buffer (`in == NULL` is the no-op initialization call).  `capUnits` is
`outend - out` in 16-bit units (`*outlen / 2`); `acc` holds the bytes
written, two per unit, low-order byte first (the C stores through
`unsigned short` on a little-endian host, and the big-endian-host branch
writes the identical bytes explicitly); `consumed` is
`processed - instart`. -/
def UTF8ToUTF16LEgo (capUnits : Nat) (acc : List Nat) (consumed : Nat) :
    List Nat → Int × Nat × List Nat
  | [] => (Int.ofNat acc.length, consumed, acc)
  | d :: rest =>
    match utf8LeadParse d with
    | none => ( XML_ENC_ERR_INPUT, consumed, acc)
    | some ct =>
      if rest.length < ct.2 then (Int.ofNat acc.length, consumed, acc)
      else
        let g := utf8Gather ct.1 ct.2 rest
        if g.1 < 0x10000 then
          if acc.length / 2 ≥ capUnits then (Int.ofNat acc.length, consumed, acc)
          else
            UTF8ToUTF16LEgo capUnits
              (acc ++ [g.1 &&& 0xFF, (g.1 >>> 8) &&& 0xFF])
              (consumed + 1 + g.2.1) g.2.2
        else if g.1 < 0x110000 then
          if acc.length / 2 + 1 ≥ capUnits then
            (Int.ofNat acc.length, consumed, acc)
          else
            UTF8ToUTF16LEgo capUnits
              (acc ++ [(0xD800 ||| ((g.1 - 0x10000) >>> 10)) &&& 0xFF,
                       ((0xD800 ||| ((g.1 - 0x10000) >>> 10)) >>> 8) &&& 0xFF,
                       (0xDC00 ||| ((g.1 - 0x10000) &&& 0x03FF)) &&& 0xFF,
                       ((0xDC00 ||| ((g.1 - 0x10000) &&& 0x03FF)) >>> 8) &&& 0xFF])
              (consumed + 1 + g.2.1) g.2.2
        else (Int.ofNat acc.length, consumed, acc)
termination_by l => l.length
decreasing_by
  all_goals simp only [List.length_cons]
  all_goals exact Nat.lt_succ_of_le (utf8Gather_rest_le _ _ _)

/-- Model of `UTF8ToUTF16LE` (encoding.c:514-609). -/
def UTF8ToUTF16LE (outcap : Nat) (inb : List Nat) : Int × Nat × List Nat :=
  UTF8ToUTF16LEgo (outcap / 2) [] 0 inb

/-- Loop of `UTF8Toascii` (encoding.c:167-208), for a non-NULL input buffer.
Lead-byte parsing and trailing-byte gathering as in `UTF8ToUTF16LE`; the
character is written only when the accumulated value is below 0x80
(`if (out >= outend) break;` first), anything else is an `INPUT` error.
`fuel` bounds the number of loop iterations; each iteration consumes at
least one input byte, so the wrapper's `inb.length` makes the bound
inoperative. -/
def UTF8ToasciiGo (fuel : Nat) (outcap : Nat) (acc : List Nat)
    (consumed : Nat) (l : List Nat) : Int × Nat × List Nat :=
  match fuel, l with
  | _, [] => (Int.ofNat acc.length, consumed, acc)
  | 0, _ => (Int.ofNat acc.length, consumed, acc)
  | fuel + 1, d :: rest =>
    match utf8LeadParse d with
    | none => ( XML_ENC_ERR_INPUT, consumed, acc)
    | some ct =>
      if rest.length < ct.2 then (Int.ofNat acc.length, consumed, acc)
      else
        let g := utf8Gather ct.1 ct.2 rest
        if g.1 < 0x80 then
          if acc.length ≥ outcap then (Int.ofNat acc.length, consumed, acc)
          else UTF8ToasciiGo fuel outcap (acc ++ [g.1]) (consumed + 1 + g.2.1) g.2.2
        else ( XML_ENC_ERR_INPUT, consumed, acc)

/-- Model of `UTF8Toascii` (encoding.c:144-212), non-NULL input. -/
def UTF8Toascii (outcap : Nat) (inb : List Nat) : Int × Nat × List Nat :=
  UTF8ToasciiGo inb.length outcap [] 0 inb

example :
    UTF16LEToUTF8 64 [0x41, 0x00, 0x01, 0xD8, 0x37, 0xDC] =
      (5, 6, [0x41, 0xF0, 0x90, 0x90, 0xB7]) := by decide

example :
    UTF16BEToUTF8 64 [0x00, 0x41, 0xD8, 0x01, 0xDC, 0x37] =
      (5, 6, [0x41, 0xF0, 0x90, 0x90, 0xB7]) := by decide

example : UTF8Toascii 20 [0x41, 0xE2, 0x82, 0xAC, 0x42] =
    ( XML_ENC_ERR_INPUT, 1, [0x41]) := by decide

/-- The `xmlBuffer` collaborator: `content` holds the `use` live bytes
(`use = content.length`), `size` the allocated capacity.  The NUL
terminator the front-end keeps at `content[use]` occupies the reserved
`size - use` slack and is not part of the data. -/
structure XmlBuffer where
  content : List Nat
  size : Nat
  deriving DecidableEq, Repr

/-- Modelled from the spec: the growable byte-buffer collaborator's grow
operation (`xmlBufferGrow`, implemented outside the examined sources).
It must ensure room for `len` more bytes (plus the terminator slot); this
model grows to exactly that when the capacity is insufficient. -/
def xmlBufferGrow (buf : XmlBuffer) (len : Nat) : XmlBuffer :=
  if buf.size < buf.content.length + len + 1 then
    ⟨buf.content, buf.content.length + len + 1⟩
  else buf

/-- Modelled from the spec: the buffer collaborator's shrink-from-front
operation (`xmlBufferShrink`): drop the first `n` live bytes. -/
def xmlBufferShrink (buf : XmlBuffer) (n : Nat) : XmlBuffer :=
  ⟨buf.content.drop n, buf.size⟩

/-- Modelled from the spec: `xmlGetUTF8Char` (implemented outside the
examined sources) — decode exactly one UTF-8 code point from the start of
the buffer, returning the code point and the number of bytes it occupies,
or `none` when the first bytes are not a complete well-formed UTF-8
sequence (the C function returns a negative value, which the fallback code
checks as `cur <= 0`). -/
def xmlGetUTF8Char : List Nat → Option (Nat × Nat)
  | [] => none
  | b0 :: rest =>
    if b0 < 0x80 then some (b0, 1)
    else if b0 < 0xC0 then none
    else if b0 < 0xE0 then
      match rest with
      | b1 :: _ =>
        if b1 &&& 0xC0 = 0x80 then
          some ((((b0 &&& 0x1F) <<< 6) ||| (b1 &&& 0x3F)), 2)
        else none
      | _ => none
    else if b0 < 0xF0 then
      match rest with
      | b1 :: b2 :: _ =>
        if b1 &&& 0xC0 = 0x80 ∧ b2 &&& 0xC0 = 0x80 then
          some ((((b0 &&& 0x0F) <<< 12) ||| ((b1 &&& 0x3F) <<< 6) |||
                 (b2 &&& 0x3F)), 3)
        else none
      | _ => none
    else if b0 < 0xF8 then
      match rest with
      | b1 :: b2 :: b3 :: _ =>
        if b1 &&& 0xC0 = 0x80 ∧ b2 &&& 0xC0 = 0x80 ∧ b3 &&& 0xC0 = 0x80 then
          some ((((b0 &&& 0x07) <<< 18) ||| ((b1 &&& 0x3F) <<< 12) |||
                 ((b2 &&& 0x3F) <<< 6) ||| (b3 &&& 0x3F)), 4)
        else none
      | _ => none
    else none

/-- The bytes produced by `snprintf(charref, 20, "&#%d;", cur)`
(encoding.c:2628-2629): ampersand, hash, the decimal digits of `cur`, and
a semicolon. -/
def charRefBytes (cur : Nat) : List Nat :=
  [0x26, 0x23] ++ (Nat.repr cur).toList.map Char.toNat ++ [0x3B]

/-- Model of `xmlCharEncOutFunc` (encoding.c:2561-2645), for a non-NULL input buffer
(`in == NULL` is the initialization call).  The `goto retry` loop is driven
by `fuel`; the `fuel = 0` fallout is chosen arbitrarily and all statements
about this function supply enough fuel for it to be unreachable.  Returns
the C return value together with the final output and input buffers. -/
def xmlCharEncOutFunc (fuel : Nat)
    (output : Nat → List Nat → Int × Nat × List Nat)
    (out inBuf : XmlBuffer) (writtentot : Nat) : Int × XmlBuffer × XmlBuffer :=
  match fuel with
  | 0 => ( XML_ENC_ERR_INTERNAL, out, inBuf)
  | fuel + 1 =>
    let written0 := out.size - out.content.length
    let written1 := if written0 > 0 then written0 - 1 else written0
    let toconv := inBuf.content.length
    let outG :=
      if toconv * 4 ≥ written1 then xmlBufferGrow out (toconv * 4) else out
    let written :=
      if toconv * 4 ≥ written1 then outG.size - outG.content.length - 1
      else written1
    let r := xmlEncOutputChunk output written inBuf.content
    let inBuf1 := xmlBufferShrink inBuf r.2.1
    let out2 : XmlBuffer := ⟨outG.content ++ r.2.2, outG.size⟩
    let writtentot1 := writtentot + r.2.2.length
    if r.1 = XML_ENC_ERR_SPACE then
      xmlCharEncOutFunc fuel output out2 inBuf1 writtentot1
    else if r.1 = XML_ENC_ERR_INPUT then
      match xmlGetUTF8Char inBuf1.content with
      | none => ( XML_ENC_ERR_INPUT, out2, inBuf1)
      | some cl =>
        let charref := charRefBytes cl.1
        let inBuf2 := xmlBufferShrink inBuf1 cl.2
        let out3 := xmlBufferGrow out2 (charref.length * 4)
        let written2 := out3.size - out3.content.length - 1
        let r2 := xmlEncOutputChunk output written2 charref
        if r2.1 < 0 ∨ r2.2.1 ≠ charref.length then
          ( XML_ENC_ERR_INTERNAL, out3, inBuf2)
        else
          xmlCharEncOutFunc fuel output ⟨out3.content ++ r2.2.2, out3.size⟩
            inBuf2 (writtentot1 + r2.2.2.length)
    else
      (if writtentot1 ≠ 0 then Int.ofNat writtentot1 else r.1, out2, inBuf1)

/-- Repeated conversion calls against a handler through `xmlEncInputChunk`,
each call given a fresh destination of capacity `outcap`: after each call
the consumed prefix of the source is discarded and the produced bytes are
collected.  Returns the concatenation of the per-call outputs and the
unconsumed remainder after `k` calls. -/
def convDrive (input : Nat → List Nat → Int × Nat × List Nat)
    (outcap : Nat) : Nat → List Nat → List Nat × List Nat
  | 0, rem => ([], rem)
  | k + 1, rem =>
    let r := xmlEncInputChunk input outcap rem
    let p := convDrive input outcap k (rem.drop r.2.1)
    (r.2.2 ++ p.1, p.2)

example : charRefBytes 8364 = [38, 35, 56, 51, 54, 52, 59] := by decide

example :
    xmlCharEncOutFunc 10 UTF8Toascii ⟨[], 0⟩ ⟨[0x41, 0xE2, 0x82, 0xAC, 0x42], 5⟩ 0 =
      (9, ⟨[65, 38, 35, 56, 51, 54, 52, 59, 66], 30⟩, ⟨[], 5⟩) := by decide

example :
    (xmlCharEncOutFunc 10 UTF8Toascii ⟨[], 0⟩ ⟨[0x80], 1⟩ 0).1 =
      XML_ENC_ERR_INPUT := by decide

/-- UTF-8 encoding of one code point, the pure content of `utf8Emit` with
no capacity limit (encoding.c:484-493). -/
def utf8enc (c : Nat) : List Nat :=
  if c < 0x80 then [c]
  else if c < 0x800 then [((c >>> 6) &&& 0x1F) ||| 0xC0, (c &&& 0x3F) ||| 0x80]
  else if c < 0x10000 then
    [((c >>> 12) &&& 0x0F) ||| 0xE0, ((c >>> 6) &&& 0x3F) ||| 0x80,
     (c &&& 0x3F) ||| 0x80]
  else
    [((c >>> 18) &&& 0x07) ||| 0xF0, ((c >>> 12) &&& 0x3F) ||| 0x80,
     ((c >>> 6) &&& 0x3F) ||| 0x80, (c &&& 0x3F) ||| 0x80]

/-- The byte sequences decodable as valid UTF-16 in the given byte order
(`be = false`: little-endian): a sequence of byte pairs whose 16-bit units
are either outside the surrogate ranges, or a high surrogate immediately
followed by a low surrogate; all bytes below 256. -/
def validUTF16 (be : Bool) : List Nat → Bool
  | [] => true
  | b0 :: b1 :: rest =>
    if b0 < 256 ∧ b1 < 256 then
      let c := if be then (b0 <<< 8) ||| b1 else b0 + 256 * b1
      if c &&& 0xFC00 = 0xD800 then
        match rest with
        | d0 :: d1 :: rest2 =>
          let d := if be then (d0 <<< 8) ||| d1 else d0 + 256 * d1
          decide (d0 < 256 ∧ d1 < 256) &&
            (decide (d &&& 0xFC00 = 0xDC00) && validUTF16 be rest2)
        | _ => false
      else if c &&& 0xFC00 = 0xDC00 then false
      else validUTF16 be rest
    else false
  | _ => false

/-- The UTF-8 bytes produced by decoding a valid UTF-16 sequence: per unit
or surrogate pair, the UTF-8 encoding of the code point computed as in
encoding.c:456-479. -/
def utf16Dec (be : Bool) : List Nat → List Nat
  | b0 :: b1 :: rest =>
    let c := if be then (b0 <<< 8) ||| b1 else b0 + 256 * b1
    if c &&& 0xFC00 = 0xD800 then
      match rest with
      | d0 :: d1 :: rest2 =>
        let d := if be then (d0 <<< 8) ||| d1 else d0 + 256 * d1
        utf8enc ((((c &&& 0x03FF) <<< 10) ||| (d &&& 0x03FF)) + 0x10000) ++
          utf16Dec be rest2
      | _ => []
    else utf8enc c ++ utf16Dec be rest
  | _ => []

theorem natAnd63 (x : Nat) : x &&& 63 = x % 64 := by
  have h := Nat.and_pow_two_sub_one_eq_mod x 6
  norm_num at h
  exact h

theorem natAnd31 (x : Nat) : x &&& 31 = x % 32 := by
  have h := Nat.and_pow_two_sub_one_eq_mod x 5
  norm_num at h
  exact h

theorem natAnd15 (x : Nat) : x &&& 15 = x % 16 := by
  have h := Nat.and_pow_two_sub_one_eq_mod x 4
  norm_num at h
  exact h

theorem natAnd7 (x : Nat) : x &&& 7 = x % 8 := by
  have h := Nat.and_pow_two_sub_one_eq_mod x 3
  norm_num at h
  exact h

theorem natAnd255 (x : Nat) : x &&& 255 = x % 256 := by
  have h := Nat.and_pow_two_sub_one_eq_mod x 8
  norm_num at h
  exact h

theorem natAnd1023 (x : Nat) : x &&& 1023 = x % 1024 := by
  have h := Nat.and_pow_two_sub_one_eq_mod x 10
  norm_num at h
  exact h

theorem natShr6 (x : Nat) : x >>> 6 = x / 64 := by
  have h := Nat.shiftRight_eq_div_pow x 6
  norm_num at h
  exact h

theorem natShr8 (x : Nat) : x >>> 8 = x / 256 := by
  have h := Nat.shiftRight_eq_div_pow x 8
  norm_num at h
  exact h

theorem natShr10 (x : Nat) : x >>> 10 = x / 1024 := by
  have h := Nat.shiftRight_eq_div_pow x 10
  norm_num at h
  exact h

theorem natShr12 (x : Nat) : x >>> 12 = x / 4096 := by
  have h := Nat.shiftRight_eq_div_pow x 12
  norm_num at h
  exact h

theorem natShr18 (x : Nat) : x >>> 18 = x / 262144 := by
  have h := Nat.shiftRight_eq_div_pow x 18
  norm_num at h
  exact h

theorem natAndShl (x m k : Nat) : x &&& (m <<< k) = ((x >>> k) &&& m) <<< k := by
  apply Nat.eq_of_testBit_eq
  intro i
  simp only [Nat.testBit_and, Nat.testBit_shiftLeft, Nat.testBit_shiftRight]
  by_cases h : k ≤ i
  · simp [h, Nat.add_sub_cancel' h, Bool.and_comm, Bool.and_left_comm]
  · simp [h]

theorem natAndC0 (x : Nat) : x &&& 0xC0 = x / 64 % 4 * 64 := by
  have h : (0xC0 : Nat) = 3 <<< 6 := by norm_num [Nat.shiftLeft_eq]
  rw [h, natAndShl, Nat.shiftLeft_eq, natShr6]
  have h2 := Nat.and_pow_two_sub_one_eq_mod (x / 64) 2
  norm_num at h2
  rw [h2]

theorem natAndFC00 (x : Nat) : x &&& 0xFC00 = x / 1024 % 64 * 1024 := by
  have h : (0xFC00 : Nat) = 63 <<< 10 := by norm_num [Nat.shiftLeft_eq]
  rw [h, natAndShl, Nat.shiftLeft_eq, natShr10, natAnd63]

theorem natOrAdd (i a b : Nat) (h : b < 2 ^ i) : (2 ^ i * a) ||| b = 2 ^ i * a + b :=
  (Nat.mul_add_lt_is_or h a).symm

theorem natOr80 (x : Nat) (h : x < 128) : x ||| 0x80 = 0x80 + x := by
  rw [Nat.lor_comm]
  have h2 := natOrAdd 7 1 x (by omega)
  norm_num at h2
  exact h2

theorem natOrC0 (x : Nat) (h : x < 64) : x ||| 0xC0 = 0xC0 + x := by
  rw [Nat.lor_comm]
  have h2 := natOrAdd 6 3 x (by omega)
  norm_num at h2
  exact h2

theorem natOrE0 (x : Nat) (h : x < 32) : x ||| 0xE0 = 0xE0 + x := by
  rw [Nat.lor_comm]
  have h2 := natOrAdd 5 7 x (by omega)
  norm_num at h2
  exact h2

theorem natOrF0 (x : Nat) (h : x < 16) : x ||| 0xF0 = 0xF0 + x := by
  rw [Nat.lor_comm]
  have h2 := natOrAdd 4 15 x (by omega)
  norm_num at h2
  exact h2

theorem natOrD800 (x : Nat) (h : x < 1024) : 0xD800 ||| x = 0xD800 + x := by
  have h2 := natOrAdd 10 54 x (by omega)
  norm_num at h2
  exact h2

theorem natOrDC00 (x : Nat) (h : x < 1024) : 0xDC00 ||| x = 0xDC00 + x := by
  have h2 := natOrAdd 10 55 x (by omega)
  norm_num at h2
  exact h2

theorem natShl6Or (x y : Nat) (h : y < 64) : (x <<< 6) ||| y = 64 * x + y := by
  rw [Nat.shiftLeft_eq]
  have h2 := natOrAdd 6 x y (by omega)
  norm_num at h2 ⊢
  rw [Nat.mul_comm] at h2
  rw [h2, Nat.mul_comm]

theorem natShl10Or (x y : Nat) (h : y < 1024) : (x <<< 10) ||| y = 1024 * x + y := by
  rw [Nat.shiftLeft_eq]
  have h2 := natOrAdd 10 x y (by omega)
  norm_num at h2 ⊢
  rw [Nat.mul_comm] at h2
  rw [h2, Nat.mul_comm]

theorem natShl8Or (x y : Nat) (h : y < 256) : (x <<< 8) ||| y = 256 * x + y := by
  rw [Nat.shiftLeft_eq]
  have h2 := natOrAdd 8 x y (by omega)
  norm_num at h2 ⊢
  rw [Nat.mul_comm] at h2
  rw [h2, Nat.mul_comm]

theorem utf8Cont_one (outcap : Nat) (acc : List Nat) (c : Nat)
    (h : acc.length + 1 ≤ outcap) :
    utf8Cont outcap acc c 1 = acc ++ [(c &&& 0x3F) ||| 0x80] := by
  have h0 : ¬ acc.length ≥ outcap := by omega
  simp [utf8Cont, h0]

theorem utf8Cont_two (outcap : Nat) (acc : List Nat) (c : Nat)
    (h : acc.length + 2 ≤ outcap) :
    utf8Cont outcap acc c 2 =
      acc ++ [((c >>> 6) &&& 0x3F) ||| 0x80, (c &&& 0x3F) ||| 0x80] := by
  have h0 : ¬ acc.length ≥ outcap := by omega
  have h1 : ¬ acc.length + 1 ≥ outcap := by omega
  simp [utf8Cont, h0, h1]

theorem utf8Cont_three (outcap : Nat) (acc : List Nat) (c : Nat)
    (h : acc.length + 3 ≤ outcap) :
    utf8Cont outcap acc c 3 =
      acc ++ [((c >>> 12) &&& 0x3F) ||| 0x80, ((c >>> 6) &&& 0x3F) ||| 0x80,
              (c &&& 0x3F) ||| 0x80] := by
  have h0 : ¬ acc.length ≥ outcap := by omega
  have h1 : ¬ acc.length + 1 ≥ outcap := by omega
  have h2 : ¬ acc.length + 2 ≥ outcap := by omega
  simp [utf8Cont, h0, h1, h2]

theorem utf8Emit_eq (outcap : Nat) (acc : List Nat) (c : Nat)
    (h : acc.length + 4 ≤ outcap) :
    utf8Emit outcap acc c = acc ++ utf8enc c := by
  unfold utf8Emit utf8enc
  split_ifs with h1 h2 h3
  · rfl
  · rw [utf8Cont_one _ _ _ (by simp; omega)]
    simp
  · rw [utf8Cont_two _ _ _ (by simp; omega)]
    simp
  · rw [utf8Cont_three _ _ _ (by simp; omega)]
    simp

theorem utf8enc_length_le (c : Nat) : (utf8enc c).length ≤ 4 := by
  unfold utf8enc
  split_ifs <;> simp

theorem utf8enc_length_pos (c : Nat) : 1 ≤ (utf8enc c).length := by
  unfold utf8enc
  split_ifs <;> simp

set_option maxHeartbeats 1600000 in
theorem utf16go_append (be : Bool) :
    ∀ (n : Nat) (v s acc : List Nat) (consumed outcap : Nat),
      v.length = n →
      validUTF16 be v = true →
      acc.length + 3 * v.length + 6 ≤ outcap →
      utf16ToUTF8go be outcap acc consumed (v ++ s) =
        utf16ToUTF8go be outcap (acc ++ utf16Dec be v) (consumed + v.length) s := by
  intro n
  induction n using Nat.strong_induction_on with
  | _ n ih =>
    intro v s acc consumed outcap hlen hv hcap
    rcases v with _ | ⟨b0, _ | ⟨b1, rest⟩⟩
    · simp only [List.nil_append, utf16Dec, List.append_nil, List.length_nil,
        Nat.add_zero]
    · rw [validUTF16.eq_def] at hv
      simp at hv
    · rw [validUTF16.eq_def] at hv
      simp only [] at hv
      by_cases hb : b0 < 256 ∧ b1 < 256
      case neg =>
        rw [if_neg hb] at hv
        simp at hv
      rw [if_pos hb] at hv
      simp only [List.cons_append]
      by_cases hc :
          (if be = true then (b0 <<< 8) ||| b1 else b0 + 256 * b1) &&& 0xFC00 = 0xD800
      · rw [if_pos hc] at hv
        rcases rest with _ | ⟨d0, _ | ⟨d1, rest2⟩⟩
        · simp at hv
        · simp at hv
        · simp only [Bool.and_eq_true, decide_eq_true_eq] at hv
          obtain ⟨hd, hdc, hv2⟩ := hv
          simp only [List.length_cons] at hlen hcap
          simp only [List.cons_append]
          rw [utf16ToUTF8go.eq_def]
          simp only []
          rw [if_pos (show acc.length + 5 < outcap by omega)]
          rw [if_pos hc, if_pos hdc]
          rw [if_neg (show ¬ acc.length ≥ outcap by omega)]
          rw [utf8Emit_eq _ _ _ (by omega)]
          rw [utf16Dec.eq_def]
          simp only []
          rw [if_pos hc]
          rw [ih rest2.length (by omega) rest2 s _ _ outcap rfl hv2
            (by
              have := utf8enc_length_le
                ((((if be = true then (b0 <<< 8) ||| b1 else b0 + 256 * b1) &&& 0x03FF) <<< 10 |||
                  (if be = true then (d0 <<< 8) ||| d1 else d0 + 256 * d1) &&& 0x03FF) + 0x10000)
              simp only [List.length_append]
              omega)]
          simp only [List.append_assoc, List.length_cons]
          have he : consumed + 4 + rest2.length =
              consumed + (rest2.length + 1 + 1 + 1 + 1) := by omega
          rw [he]
      · rw [if_neg hc] at hv
        by_cases hc2 :
            (if be = true then (b0 <<< 8) ||| b1 else b0 + 256 * b1) &&& 0xFC00 = 0xDC00
        · rw [if_pos hc2] at hv
          simp at hv
        · rw [if_neg hc2] at hv
          simp only [List.length_cons] at hlen hcap
          rw [utf16ToUTF8go.eq_def]
          simp only []
          rw [if_pos (show acc.length + 5 < outcap by omega)]
          rw [if_neg hc]
          rw [if_neg (show ¬ acc.length ≥ outcap by omega)]
          rw [utf8Emit_eq _ _ _ (by omega)]
          rw [utf16Dec.eq_def]
          simp only []
          rw [if_neg hc]
          rw [ih rest.length (by omega) rest s _ _ outcap rfl hv
            (by
              have := utf8enc_length_le
                (if be = true then (b0 <<< 8) ||| b1 else b0 + 256 * b1)
              simp only [List.length_append]
              omega)]
          simp only [List.append_assoc, List.length_cons]
          have he : consumed + 2 + rest.length =
              consumed + (rest.length + 1 + 1) := by omega
          rw [he]

theorem validUTF16_even (be : Bool) :
    ∀ (n : Nat) (v : List Nat), v.length = n → validUTF16 be v = true →
      v.length % 2 = 0 := by
  intro n
  induction n using Nat.strong_induction_on with
  | _ n ih =>
    intro v hlen hv
    rcases v with _ | ⟨b0, _ | ⟨b1, rest⟩⟩
    · simp
    · rw [validUTF16.eq_def] at hv
      simp at hv
    · rw [validUTF16.eq_def] at hv
      simp only [] at hv
      by_cases hb : b0 < 256 ∧ b1 < 256
      case neg =>
        rw [if_neg hb] at hv
        simp at hv
      rw [if_pos hb] at hv
      by_cases hc :
          (if be = true then (b0 <<< 8) ||| b1 else b0 + 256 * b1) &&& 0xFC00 = 0xD800
      · rw [if_pos hc] at hv
        rcases rest with _ | ⟨d0, _ | ⟨d1, rest2⟩⟩
        · simp at hv
        · simp at hv
        · simp only [Bool.and_eq_true, decide_eq_true_eq] at hv
          have h2 := ih rest2.length (by simp at hlen; omega) rest2 rfl hv.2.2
          simp only [List.length_cons]
          omega
      · rw [if_neg hc] at hv
        by_cases hc2 :
            (if be = true then (b0 <<< 8) ||| b1 else b0 + 256 * b1) &&& 0xFC00 = 0xDC00
        · rw [if_pos hc2] at hv
          simp at hv
        · rw [if_neg hc2] at hv
          have h2 := ih rest.length (by simp at hlen; omega) rest rfl hv
          simp only [List.length_cons]
          omega

theorem utf16Dec_length_le (be : Bool) :
    ∀ (n : Nat) (v : List Nat), v.length = n →
      (utf16Dec be v).length ≤ 3 * v.length := by
  intro n
  induction n using Nat.strong_induction_on with
  | _ n ih =>
    intro v hlen
    rcases v with _ | ⟨b0, _ | ⟨b1, rest⟩⟩
    · rw [utf16Dec.eq_def]
      simp
    · rw [utf16Dec.eq_def]
      simp
    · rw [utf16Dec.eq_def]
      simp only []
      by_cases hc :
          (if be = true then (b0 <<< 8) ||| b1 else b0 + 256 * b1) &&& 0xFC00 = 0xD800
      · rw [if_pos hc]
        rcases rest with _ | ⟨d0, _ | ⟨d1, rest2⟩⟩
        · simp
        · simp
        · have h2 := ih rest2.length (by simp at hlen; omega) rest2 rfl
          have h3 := utf8enc_length_le
            ((((if be = true then (b0 <<< 8) ||| b1 else b0 + 256 * b1) &&& 0x03FF) <<< 10 |||
              (if be = true then (d0 <<< 8) ||| d1 else d0 + 256 * d1) &&& 0x03FF) + 0x10000)
          simp only [List.length_append, List.length_cons]
          omega
      · rw [if_neg hc]
        have h2 := ih rest.length (by simp at hlen; omega) rest rfl
        have h3 := utf8enc_length_le
          (if be = true then (b0 <<< 8) ||| b1 else b0 + 256 * b1)
        simp only [List.length_append, List.length_cons]
        omega

theorem utf16go_nil (be : Bool) (outcap : Nat) (acc : List Nat)
    (consumed : Nat) :
    utf16ToUTF8go be outcap acc consumed [] =
      (Int.ofNat acc.length, consumed, acc) := by
  rw [utf16ToUTF8go.eq_def]

theorem UTF16LEToUTF8_valid (b : List Nat) (hv : validUTF16 false b = true) :
    UTF16LEToUTF8 (3 * b.length + 6) b =
      (Int.ofNat (utf16Dec false b).length, b.length, utf16Dec false b) := by
  unfold UTF16LEToUTF8
  rw [if_neg (by omega)]
  have heven := validUTF16_even false b.length b rfl hv
  have htake : b.take (2 * (b.length / 2)) = b := by
    have : 2 * (b.length / 2) = b.length := by omega
    rw [this, List.take_length]
  rw [htake]
  have h := utf16go_append false b.length b [] [] 0 (3 * b.length + 6) rfl hv
    (by simp)
  simp only [List.append_nil, List.nil_append, Nat.zero_add] at h
  rw [h, utf16go_nil]

theorem UTF16BEToUTF8_valid (b : List Nat) (hv : validUTF16 true b = true) :
    UTF16BEToUTF8 (3 * b.length + 6) b =
      (Int.ofNat (utf16Dec true b).length, b.length, utf16Dec true b) := by
  unfold UTF16BEToUTF8
  rw [if_neg (by omega)]
  have heven := validUTF16_even true b.length b rfl hv
  have htake : b.take (2 * (b.length / 2)) = b := by
    have : 2 * (b.length / 2) = b.length := by omega
    rw [this, List.take_length]
  rw [htake]
  have h := utf16go_append true b.length b [] [] 0 (3 * b.length + 6) rfl hv
    (by simp)
  simp only [List.append_nil, List.nil_append, Nat.zero_add] at h
  rw [h, utf16go_nil]

theorem utf8Gather_cont (c r : Nat) (hr : r < 64) (t : Nat) (u : List Nat) :
    utf8Gather c (t + 1) ((0x80 + r) :: u) =
      ((utf8Gather (64 * c + r) t u).1,
       (utf8Gather (64 * c + r) t u).2.1 + 1,
       (utf8Gather (64 * c + r) t u).2.2) := by
  rw [utf8Gather]
  rw [if_neg (by rw [natAndC0]; omega)]
  rw [natAnd63]
  have hm : (0x80 + r) % 64 = r := by omega
  rw [hm, natShl6Or c r hr]

theorem utf8enc_two (c : Nat) (h1 : 0x80 ≤ c) (h2 : c < 0x800) :
    utf8enc c = [0xC0 + c / 64, 0x80 + c % 64] := by
  unfold utf8enc
  rw [if_neg (by omega), if_pos h2]
  rw [natShr6, natAnd31, natAnd63]
  rw [Nat.mod_eq_of_lt (show c / 64 < 32 by omega)]
  rw [natOrC0 _ (by omega), natOr80 _ (by omega)]

theorem utf8enc_three (c : Nat) (h1 : 0x800 ≤ c) (h2 : c < 0x10000) :
    utf8enc c = [0xE0 + c / 4096, 0x80 + c / 64 % 64, 0x80 + c % 64] := by
  unfold utf8enc
  rw [if_neg (by omega), if_neg (by omega), if_pos h2]
  rw [natShr12, natShr6, natAnd15, natAnd63, natAnd63]
  rw [Nat.mod_eq_of_lt (show c / 4096 < 16 by omega)]
  rw [natOrE0 _ (by omega), natOr80 (c / 64 % 64) (by omega),
    natOr80 _ (by omega)]

theorem utf8enc_four (c : Nat) (h1 : 0x10000 ≤ c) (h2 : c < 0x110000) :
    utf8enc c = [0xF0 + c / 262144, 0x80 + c / 4096 % 64, 0x80 + c / 64 % 64,
      0x80 + c % 64] := by
  unfold utf8enc
  rw [if_neg (by omega), if_neg (by omega), if_neg (by omega)]
  rw [natShr18, natShr12, natShr6, natAnd7, natAnd63, natAnd63, natAnd63]
  rw [Nat.mod_eq_of_lt (show c / 262144 < 8 by omega)]
  rw [natOrF0 _ (by omega), natOr80 (c / 4096 % 64) (by omega),
    natOr80 (c / 64 % 64) (by omega), natOr80 _ (by omega)]

theorem UTF8ToUTF16LEgo_step1 (capUnits : Nat) (acc : List Nat) (cons : Nat)
    (c : Nat) (u : List Nat) (hc : c < 0x10000)
    (hcap : acc.length / 2 < capUnits) :
    UTF8ToUTF16LEgo capUnits acc cons (utf8enc c ++ u) =
      UTF8ToUTF16LEgo capUnits (acc ++ [c &&& 0xFF, (c >>> 8) &&& 0xFF])
        (cons + (utf8enc c).length) u := by
  rcases Nat.lt_or_ge c 0x80 with h1 | h1
  · have henc : utf8enc c = [c] := by
      unfold utf8enc
      rw [if_pos h1]
    rw [henc]
    simp only [List.cons_append, List.nil_append, List.length_cons,
      List.length_nil]
    have hparse : utf8LeadParse c = some (c, 0) := by
      unfold utf8LeadParse
      rw [if_pos h1]
    rw [UTF8ToUTF16LEgo]
    simp only [hparse]
    rw [if_neg (show ¬ u.length < 0 by omega)]
    simp only [utf8Gather]
    rw [if_pos hc]
    rw [if_neg (show ¬ acc.length / 2 ≥ capUnits by omega)]
  · rcases Nat.lt_or_ge c 0x800 with h2 | h2
    · have henc := utf8enc_two c h1 h2
      rw [henc]
      simp only [List.cons_append, List.nil_append, List.length_cons,
        List.length_nil]
      have hparse : utf8LeadParse (0xC0 + c / 64) = some (c / 64, 1) := by
        unfold utf8LeadParse
        rw [if_neg (by omega), if_neg (by omega), if_pos (by omega)]
        rw [natAnd31]
        have hm : (0xC0 + c / 64) % 32 = c / 64 := by omega
        rw [hm]
      rw [UTF8ToUTF16LEgo]
      simp only [hparse]
      rw [if_neg (show ¬ ((0x80 + c % 64) :: u).length < 1 by simp)]
      rw [utf8Gather_cont (c / 64) (c % 64) (by omega) 0 u]
      rw [Nat.div_add_mod c 64]
      simp only [utf8Gather]
      rw [if_pos hc]
      rw [if_neg (show ¬ acc.length / 2 ≥ capUnits by omega)]
    · have h3 : c < 0x10000 := hc
      have henc := utf8enc_three c h2 h3
      rw [henc]
      simp only [List.cons_append, List.nil_append, List.length_cons,
        List.length_nil]
      have hparse : utf8LeadParse (0xE0 + c / 4096) = some (c / 4096, 2) := by
        unfold utf8LeadParse
        rw [if_neg (by omega), if_neg (by omega), if_neg (by omega),
          if_pos (by omega)]
        rw [natAnd15]
        have hm : (0xE0 + c / 4096) % 16 = c / 4096 := by omega
        rw [hm]
      rw [UTF8ToUTF16LEgo]
      simp only [hparse]
      rw [if_neg
        (show ¬ ((0x80 + c / 64 % 64) :: (0x80 + c % 64) :: u).length < 2 by simp)]
      rw [utf8Gather_cont (c / 4096) (c / 64 % 64) (by omega) 1
        ((0x80 + c % 64) :: u)]
      have hd1 : 64 * (c / 4096) + c / 64 % 64 = c / 64 := by
        rw [show c / 4096 = c / 64 / 64 by rw [Nat.div_div_eq_div_mul]]
        exact Nat.div_add_mod (c / 64) 64
      rw [hd1]
      rw [utf8Gather_cont (c / 64) (c % 64) (by omega) 0 u]
      rw [Nat.div_add_mod c 64]
      simp only [utf8Gather]
      rw [if_pos hc]
      rw [if_neg (show ¬ acc.length / 2 ≥ capUnits by omega)]

theorem UTF8ToUTF16LEgo_step2 (capUnits : Nat) (acc : List Nat) (cons : Nat)
    (c : Nat) (u : List Nat) (hc1 : 0x10000 ≤ c) (hc2 : c < 0x110000)
    (hcap : acc.length / 2 + 1 < capUnits) :
    UTF8ToUTF16LEgo capUnits acc cons (utf8enc c ++ u) =
      UTF8ToUTF16LEgo capUnits
        (acc ++ [(0xD800 ||| ((c - 0x10000) >>> 10)) &&& 0xFF,
                 ((0xD800 ||| ((c - 0x10000) >>> 10)) >>> 8) &&& 0xFF,
                 (0xDC00 ||| ((c - 0x10000) &&& 0x03FF)) &&& 0xFF,
                 ((0xDC00 ||| ((c - 0x10000) &&& 0x03FF)) >>> 8) &&& 0xFF])
        (cons + (utf8enc c).length) u := by
  have henc := utf8enc_four c hc1 hc2
  rw [henc]
  simp only [List.cons_append, List.nil_append, List.length_cons,
    List.length_nil]
  have hparse : utf8LeadParse (0xF0 + c / 262144) = some (c / 262144, 3) := by
    unfold utf8LeadParse
    rw [if_neg (by omega), if_neg (by omega), if_neg (by omega),
      if_neg (by omega), if_pos (by omega)]
    rw [natAnd7]
    have hm : (0xF0 + c / 262144) % 8 = c / 262144 := by omega
    rw [hm]
  rw [UTF8ToUTF16LEgo]
  simp only [hparse]
  rw [if_neg (show ¬ ((0x80 + c / 4096 % 64) :: (0x80 + c / 64 % 64) ::
    (0x80 + c % 64) :: u).length < 3 by simp)]
  rw [utf8Gather_cont (c / 262144) (c / 4096 % 64) (by omega) 2
    ((0x80 + c / 64 % 64) :: (0x80 + c % 64) :: u)]
  have hd2 : 64 * (c / 262144) + c / 4096 % 64 = c / 4096 := by
    rw [show c / 262144 = c / 4096 / 64 by rw [Nat.div_div_eq_div_mul]]
    exact Nat.div_add_mod (c / 4096) 64
  rw [hd2]
  rw [utf8Gather_cont (c / 4096) (c / 64 % 64) (by omega) 1
    ((0x80 + c % 64) :: u)]
  have hd1 : 64 * (c / 4096) + c / 64 % 64 = c / 64 := by
    rw [show c / 4096 = c / 64 / 64 by rw [Nat.div_div_eq_div_mul]]
    exact Nat.div_add_mod (c / 64) 64
  rw [hd1]
  rw [utf8Gather_cont (c / 64) (c % 64) (by omega) 0 u]
  rw [Nat.div_add_mod c 64]
  simp only [utf8Gather]
  rw [if_neg (show ¬ c < 0x10000 by omega), if_pos hc2]
  rw [if_neg (show ¬ acc.length / 2 + 1 ≥ capUnits by omega)]

theorem UTF8ToUTF16LEgo_dec (capUnits : Nat) :
    ∀ (n : Nat) (v u acc : List Nat) (cons : Nat),
      v.length = n →
      validUTF16 false v = true →
      acc.length % 2 = 0 →
      acc.length + v.length ≤ 2 * capUnits →
      UTF8ToUTF16LEgo capUnits acc cons (utf16Dec false v ++ u) =
        UTF8ToUTF16LEgo capUnits (acc ++ v)
          (cons + (utf16Dec false v).length) u := by
  intro n
  induction n using Nat.strong_induction_on with
  | _ n ih =>
    intro v u acc cons hlen hv hev hcap
    rcases v with _ | ⟨b0, _ | ⟨b1, rest⟩⟩
    · rw [utf16Dec.eq_def]
      simp
    · rw [validUTF16.eq_def] at hv
      simp at hv
    · rw [validUTF16.eq_def] at hv
      simp only [Bool.false_eq_true, if_false] at hv
      by_cases hb : b0 < 256 ∧ b1 < 256
      case neg =>
        rw [if_neg hb] at hv
        simp at hv
      rw [if_pos hb] at hv
      rw [utf16Dec.eq_def]
      simp only [Bool.false_eq_true, if_false]
      by_cases hc : (b0 + 256 * b1) &&& 0xFC00 = 0xD800
      · rw [if_pos hc] at hv ⊢
        rcases rest with _ | ⟨d0, _ | ⟨d1, rest2⟩⟩
        · simp at hv
        · simp at hv
        · simp only [Bool.and_eq_true, decide_eq_true_eq] at hv
          obtain ⟨hd, hdc, hv2⟩ := hv
          simp only [List.length_cons] at hlen hcap
          simp only [List.append_assoc]
          have hcval : b0 + 256 * b1 = 0xD800 + (b0 + 256 * b1) % 1024 := by
            have h1 := natAndFC00 (b0 + 256 * b1)
            rw [hc] at h1
            omega
          have hdval : d0 + 256 * d1 = 0xDC00 + (d0 + 256 * d1) % 1024 := by
            have h1 := natAndFC00 (d0 + 256 * d1)
            rw [hdc] at h1
            omega
          have hsub :
              ((((b0 + 256 * b1) &&& 0x03FF) <<< 10 |||
                (d0 + 256 * d1) &&& 0x03FF) + 0x10000) - 0x10000 =
              1024 * ((b0 + 256 * b1) % 1024) + (d0 + 256 * d1) % 1024 := by
            rw [natAnd1023, natAnd1023,
              natShl10Or _ _ (Nat.mod_lt _ (by omega))]
            omega
          have hrange1 :
              0x10000 ≤ (((b0 + 256 * b1) &&& 0x03FF) <<< 10 |||
                (d0 + 256 * d1) &&& 0x03FF) + 0x10000 := by omega
          have hrange2 :
              ((((b0 + 256 * b1) &&& 0x03FF) <<< 10 |||
                (d0 + 256 * d1) &&& 0x03FF) + 0x10000) < 0x110000 := by
            rw [natAnd1023, natAnd1023,
              natShl10Or _ _ (Nat.mod_lt _ (by omega))]
            have := Nat.mod_lt (b0 + 256 * b1) (show 0 < 1024 by omega)
            have := Nat.mod_lt (d0 + 256 * d1) (show 0 < 1024 by omega)
            omega
          rw [UTF8ToUTF16LEgo_step2 capUnits acc cons _ _ hrange1 hrange2
            (by omega)]
          have hbytes :
              [(0xD800 ||| (((((b0 + 256 * b1) &&& 0x03FF) <<< 10 |||
                  (d0 + 256 * d1) &&& 0x03FF) + 0x10000 - 0x10000) >>> 10)) &&& 0xFF,
               ((0xD800 ||| (((((b0 + 256 * b1) &&& 0x03FF) <<< 10 |||
                  (d0 + 256 * d1) &&& 0x03FF) + 0x10000 - 0x10000) >>> 10)) >>> 8) &&& 0xFF,
               (0xDC00 ||| ((((((b0 + 256 * b1) &&& 0x03FF) <<< 10 |||
                  (d0 + 256 * d1) &&& 0x03FF) + 0x10000 - 0x10000)) &&& 0x03FF)) &&& 0xFF,
               ((0xDC00 ||| ((((((b0 + 256 * b1) &&& 0x03FF) <<< 10 |||
                  (d0 + 256 * d1) &&& 0x03FF) + 0x10000 - 0x10000)) &&& 0x03FF)) >>> 8) &&& 0xFF] =
              [b0, b1, d0, d1] := by
            rw [hsub]
            have hq : (1024 * ((b0 + 256 * b1) % 1024) +
                (d0 + 256 * d1) % 1024) >>> 10 = (b0 + 256 * b1) % 1024 := by
              rw [natShr10]
              have := Nat.mod_lt (d0 + 256 * d1) (show 0 < 1024 by omega)
              omega
            have hr : (1024 * ((b0 + 256 * b1) % 1024) +
                (d0 + 256 * d1) % 1024) &&& 0x03FF = (d0 + 256 * d1) % 1024 := by
              rw [natAnd1023]
              have := Nat.mod_lt (d0 + 256 * d1) (show 0 < 1024 by omega)
              omega
            rw [hq, hr]
            rw [natOrD800 _ (Nat.mod_lt _ (by omega))]
            rw [natOrDC00 _ (Nat.mod_lt _ (by omega))]
            rw [← hcval, ← hdval]
            rw [natAnd255, natAnd255, natShr8, natShr8, natAnd255, natAnd255]
            have e1 : (b0 + 256 * b1) % 256 = b0 := by omega
            have e2 : (b0 + 256 * b1) / 256 % 256 = b1 := by omega
            have e3 : (d0 + 256 * d1) % 256 = d0 := by omega
            have e4 : (d0 + 256 * d1) / 256 % 256 = d1 := by omega
            rw [e1, e2, e3, e4]
          rw [hbytes]
          rw [ih rest2.length (by omega) rest2 u (acc ++ [b0, b1, d0, d1]) _
            rfl hv2 (by simp; omega) (by simp; omega)]
          simp only [List.append_assoc, List.length_append, List.cons_append,
            List.nil_append, List.length_cons]
          rw [Nat.add_assoc]
      · rw [if_neg hc] at hv ⊢
        by_cases hc2 : (b0 + 256 * b1) &&& 0xFC00 = 0xDC00
        · rw [if_pos hc2] at hv
          simp at hv
        · rw [if_neg hc2] at hv
          simp only [List.length_cons] at hlen hcap
          simp only [List.append_assoc]
          rw [UTF8ToUTF16LEgo_step1 capUnits acc cons _ _ (by omega) (by omega)]
          have hbytes : [(b0 + 256 * b1) &&& 0xFF,
              ((b0 + 256 * b1) >>> 8) &&& 0xFF] = [b0, b1] := by
            rw [natAnd255, natShr8, natAnd255]
            have e1 : (b0 + 256 * b1) % 256 = b0 := by omega
            have e2 : (b0 + 256 * b1) / 256 % 256 = b1 := by omega
            rw [e1, e2]
          rw [hbytes]
          rw [ih rest.length (by omega) rest u (acc ++ [b0, b1]) _ rfl hv
            (by simp; omega) (by simp; omega)]
          simp only [List.append_assoc, List.length_append, List.cons_append,
            List.nil_append, List.length_cons]
          rw [Nat.add_assoc]

theorem UTF8ToUTF16LEgo_nil (capUnits : Nat) (acc : List Nat) (cons : Nat) :
    UTF8ToUTF16LEgo capUnits acc cons [] = (Int.ofNat acc.length, cons, acc) := by
  rw [UTF8ToUTF16LEgo]

example : validUTF16 false [0x41, 0x00, 0x01, 0xD8, 0x37, 0xDC] = true := by
  decide

/-- C2: for every byte sequence `b` decodable as valid UTF-16LE (surrogate
pairs included), decoding `b` with the UTF-16LE input converter
(`UTF16LEToUTF8`) with sufficient output space consumes all of `b`, and
encoding the resulting UTF-8 back with the UTF-16LE output converter
(`UTF8ToUTF16LE`) with sufficient output space consumes all of it and
yields exactly `b` (round-trip identity). -/
theorem C2_utf16le_roundtrip (b : List Nat) (hv : validUTF16 false b = true) :
    UTF16LEToUTF8 (3 * b.length + 6) b =
      (Int.ofNat (utf16Dec false b).length, b.length, utf16Dec false b) ∧
    UTF8ToUTF16LE b.length (utf16Dec false b) =
      (Int.ofNat b.length, (utf16Dec false b).length, b) := by
  refine ⟨UTF16LEToUTF8_valid b hv, ?_⟩
  unfold UTF8ToUTF16LE
  have heven := validUTF16_even false b.length b rfl hv
  have h := UTF8ToUTF16LEgo_dec (b.length / 2) b.length b [] [] 0 rfl hv
    (by simp) (by simp; omega)
  simp only [List.append_nil, List.nil_append, Nat.zero_add,
    List.length_nil] at h
  rw [h, UTF8ToUTF16LEgo_nil]

/-- C2 witness: the theorem applied to the UTF-16LE encoding of "A𐐷"
(U+10437, a surrogate pair D801 DC37). -/
theorem C2_utf16le_roundtrip_witness :
    validUTF16 false [0x41, 0x00, 0x01, 0xD8, 0x37, 0xDC] = true ∧
    (UTF16LEToUTF8 (3 * [0x41, 0x00, 0x01, 0xD8, 0x37, 0xDC].length + 6)
        [0x41, 0x00, 0x01, 0xD8, 0x37, 0xDC] =
      (Int.ofNat (utf16Dec false [0x41, 0x00, 0x01, 0xD8, 0x37, 0xDC]).length,
       [0x41, 0x00, 0x01, 0xD8, 0x37, 0xDC].length,
       utf16Dec false [0x41, 0x00, 0x01, 0xD8, 0x37, 0xDC]) ∧
     UTF8ToUTF16LE [0x41, 0x00, 0x01, 0xD8, 0x37, 0xDC].length
        (utf16Dec false [0x41, 0x00, 0x01, 0xD8, 0x37, 0xDC]) =
      (Int.ofNat [0x41, 0x00, 0x01, 0xD8, 0x37, 0xDC].length,
       (utf16Dec false [0x41, 0x00, 0x01, 0xD8, 0x37, 0xDC]).length,
       [0x41, 0x00, 0x01, 0xD8, 0x37, 0xDC])) :=
  ⟨by decide, C2_utf16le_roundtrip [0x41, 0x00, 0x01, 0xD8, 0x37, 0xDC]
    (by decide)⟩

theorem utf16go_pair_step (be : Bool) (outcap : Nat) (acc : List Nat)
    (cons : Nat) (h0 h1 e0 e1 : Nat)
    (hcap : acc.length + 5 < outcap)
    (hhi : (if be = true then (h0 <<< 8) ||| h1 else h0 + 256 * h1) &&& 0xFC00 =
      0xD800) :
    ((if be = true then (e0 <<< 8) ||| e1 else e0 + 256 * e1) &&& 0xFC00 =
        0xDC00 →
      utf16ToUTF8go be outcap acc cons [h0, h1, e0, e1] =
        (Int.ofNat (acc ++ utf8enc
            ((((if be = true then (h0 <<< 8) ||| h1 else h0 + 256 * h1) &&&
                0x03FF) <<< 10 |||
              ((if be = true then (e0 <<< 8) ||| e1 else e0 + 256 * e1) &&&
                0x03FF)) + 0x10000)).length,
         cons + 4,
         acc ++ utf8enc
            ((((if be = true then (h0 <<< 8) ||| h1 else h0 + 256 * h1) &&&
                0x03FF) <<< 10 |||
              ((if be = true then (e0 <<< 8) ||| e1 else e0 + 256 * e1) &&&
                0x03FF)) + 0x10000))) ∧
    (¬ (if be = true then (e0 <<< 8) ||| e1 else e0 + 256 * e1) &&& 0xFC00 =
        0xDC00 →
      utf16ToUTF8go be outcap acc cons [h0, h1, e0, e1] =
        ( XML_ENC_ERR_INPUT, cons, acc)) := by
  constructor
  · intro hd
    rw [utf16ToUTF8go.eq_def]
    simp only []
    rw [if_pos hcap, if_pos hhi, if_pos hd]
    rw [if_neg (show ¬ acc.length ≥ outcap by omega)]
    rw [utf8Emit_eq _ _ _ (by omega)]
    rw [utf16go_nil]
  · intro hd
    rw [utf16ToUTF8go.eq_def]
    simp only []
    rw [if_pos hcap, if_pos hhi, if_neg hd]

theorem hiSurrogateMask (x : Nat) (hx : x < 0x10000) :
    x &&& 0xFC00 = 0xD800 ↔ (0xD800 ≤ x ∧ x < 0xDC00) := by
  rw [natAndFC00]
  omega

theorem loSurrogateMask (x : Nat) (hx : x < 0x10000) :
    x &&& 0xFC00 = 0xDC00 ↔ (0xDC00 ≤ x ∧ x < 0xE000) := by
  rw [natAndFC00]
  omega

theorem take_even_self (b : List Nat) (h : b.length % 2 = 0) :
    b.take (2 * (b.length / 2)) = b := by
  have h2 : 2 * (b.length / 2) = b.length := by omega
  rw [h2, List.take_length]

/-- C7: in the UTF-16 decode direction (LE and BE), after a valid prefix, a
unit in the high-surrogate range followed by a unit outside the
low-surrogate range makes the call fail with an `INPUT` error whose
consumed/produced counts cover exactly the prefix; when the following unit
is a low surrogate, the decoded code point is
`((high & 0x3FF) << 10 | (low & 0x3FF)) + 0x10000`, whose UTF-8 encoding is
appended to the prefix's decoding.  Units are given by their little-endian
byte pairs (`h0 + 256*h1` is the unit value; the BE converter reads the
same unit from the swapped byte order). -/
theorem C7_utf16_surrogates (vle vbe : List Nat) (h0 h1 e0 e1 l0 l1 : Nat)
    (hvle : validUTF16 false vle = true) (hvbe : validUTF16 true vbe = true)
    (hb : h0 < 256 ∧ h1 < 256 ∧ e0 < 256 ∧ e1 < 256 ∧ l0 < 256 ∧ l1 < 256)
    (hhi : 0xD800 ≤ h0 + 256 * h1 ∧ h0 + 256 * h1 < 0xDC00)
    (he : ¬ (0xDC00 ≤ e0 + 256 * e1 ∧ e0 + 256 * e1 < 0xE000))
    (hlo : 0xDC00 ≤ l0 + 256 * l1 ∧ l0 + 256 * l1 < 0xE000) :
    (UTF16LEToUTF8 (3 * (vle.length + 4) + 6) (vle ++ [h0, h1, e0, e1]) =
      ( XML_ENC_ERR_INPUT, vle.length, utf16Dec false vle)) ∧
    (UTF16BEToUTF8 (3 * (vbe.length + 4) + 6) (vbe ++ [h1, h0, e1, e0]) =
      ( XML_ENC_ERR_INPUT, vbe.length, utf16Dec true vbe)) ∧
    (UTF16LEToUTF8 (3 * (vle.length + 4) + 6) (vle ++ [h0, h1, l0, l1]) =
      (Int.ofNat (utf16Dec false vle ++ utf8enc
          ((((h0 + 256 * h1) &&& 0x03FF) <<< 10 |||
            ((l0 + 256 * l1) &&& 0x03FF)) + 0x10000)).length,
       vle.length + 4,
       utf16Dec false vle ++ utf8enc
          ((((h0 + 256 * h1) &&& 0x03FF) <<< 10 |||
            ((l0 + 256 * l1) &&& 0x03FF)) + 0x10000))) ∧
    (UTF16BEToUTF8 (3 * (vbe.length + 4) + 6) (vbe ++ [h1, h0, l1, l0]) =
      (Int.ofNat (utf16Dec true vbe ++ utf8enc
          ((((h0 + 256 * h1) &&& 0x03FF) <<< 10 |||
            ((l0 + 256 * l1) &&& 0x03FF)) + 0x10000)).length,
       vbe.length + 4,
       utf16Dec true vbe ++ utf8enc
          ((((h0 + 256 * h1) &&& 0x03FF) <<< 10 |||
            ((l0 + 256 * l1) &&& 0x03FF)) + 0x10000))) := by
  obtain ⟨hb0, hb1, hb2, hb3, hb4, hb5⟩ := hb
  have hdecL := utf16Dec_length_le false vle.length vle rfl
  have hdecB := utf16Dec_length_le true vbe.length vbe rfl
  have hevL := validUTF16_even false vle.length vle rfl hvle
  have hevB := validUTF16_even true vbe.length vbe rfl hvbe
  have hhiM : (h0 + 256 * h1) &&& 0xFC00 = 0xD800 :=
    (hiSurrogateMask _ (by omega)).mpr hhi
  have heM : ¬ (e0 + 256 * e1) &&& 0xFC00 = 0xDC00 := fun hmask =>
    he ((loSurrogateMask _ (by omega)).mp hmask)
  have hloM : (l0 + 256 * l1) &&& 0xFC00 = 0xDC00 :=
    (loSurrogateMask _ (by omega)).mpr hlo
  have hu1 : (h1 <<< 8) ||| h0 = h0 + 256 * h1 := by
    rw [natShl8Or _ _ (by omega)]
    omega
  have hue : (e1 <<< 8) ||| e0 = e0 + 256 * e1 := by
    rw [natShl8Or _ _ (by omega)]
    omega
  have hul : (l1 <<< 8) ||| l0 = l0 + 256 * l1 := by
    rw [natShl8Or _ _ (by omega)]
    omega
  refine ⟨?_, ?_, ?_, ?_⟩
  · unfold UTF16LEToUTF8
    rw [if_neg (by omega)]
    rw [take_even_self _ (by simp; omega)]
    rw [utf16go_append false vle.length vle [h0, h1, e0, e1] [] 0 _ rfl hvle
      (by simp)]
    simp only [List.nil_append, Nat.zero_add]
    exact (utf16go_pair_step false _ _ _ h0 h1 e0 e1 (by omega) hhiM).2 heM
  · unfold UTF16BEToUTF8
    rw [if_neg (by omega)]
    rw [take_even_self _ (by simp; omega)]
    rw [utf16go_append true vbe.length vbe [h1, h0, e1, e0] [] 0 _ rfl hvbe
      (by simp)]
    simp only [List.nil_append, Nat.zero_add]
    refine (utf16go_pair_step true _ _ _ h1 h0 e1 e0 (by omega) ?_).2 ?_
    · show ((h1 <<< 8) ||| h0) &&& 0xFC00 = 0xD800
      rw [hu1]
      exact hhiM
    · show ¬ ((e1 <<< 8) ||| e0) &&& 0xFC00 = 0xDC00
      rw [hue]
      exact heM
  · unfold UTF16LEToUTF8
    rw [if_neg (by omega)]
    rw [take_even_self _ (by simp; omega)]
    rw [utf16go_append false vle.length vle [h0, h1, l0, l1] [] 0 _ rfl hvle
      (by simp)]
    simp only [List.nil_append, Nat.zero_add]
    exact (utf16go_pair_step false _ _ _ h0 h1 l0 l1 (by omega) hhiM).1 hloM
  · unfold UTF16BEToUTF8
    rw [if_neg (by omega)]
    rw [take_even_self _ (by simp; omega)]
    rw [utf16go_append true vbe.length vbe [h1, h0, l1, l0] [] 0 _ rfl hvbe
      (by simp)]
    simp only [List.nil_append, Nat.zero_add]
    rw [← hu1, ← hul]
    exact (utf16go_pair_step true _ _ _ h1 h0 l1 l0 (by omega)
      (by rw [hu1]; exact hhiM)).1 (by rw [hul]; exact hloM)

/-- C7 witness: empty valid prefixes, high surrogate D801, non-low unit
0x0041, low surrogate DC37. -/
theorem C7_utf16_surrogates_witness :
    validUTF16 false [] = true ∧ validUTF16 true [] = true ∧
    (UTF16LEToUTF8 (3 * (([] : List Nat).length + 4) + 6)
        ([] ++ [0x01, 0xD8, 0x41, 0x00]) =
      ( XML_ENC_ERR_INPUT, ([] : List Nat).length, utf16Dec false [])) := by
  refine ⟨by decide, by decide, ?_⟩
  exact (C7_utf16_surrogates [] [] 0x01 0xD8 0x41 0x00 0x37 0xDC
    (by decide) (by decide) (by decide) (by decide) (by decide)
    (by decide)).1

/-- C1: for a conversion call driven through the chunked engine with a
built-in handler (a handler function invoked by `xmlEncInputChunk` /
`xmlEncOutputChunk`) that returns a non-negative value without consuming
all input: if output was produced the outcome is classified `SPACE` on both
paths; if no output was produced the outcome is `PARTIAL`, which the
input/decode path converts to `SUCCESS` (never surfaced as an error) and
the output/encode path converts to an `INTERNAL` error. -/
theorem C1_chunk_classification
    (f : Nat → List Nat → Int × Nat × List Nat) (outcap : Nat)
    (inb : List Nat) (hret : 0 ≤ (f outcap inb).1)
    (hcons : (f outcap inb).2.1 < inb.length) :
    (0 < (f outcap inb).2.2.length →
      xmlEncInputChunk f outcap inb =
        ( XML_ENC_ERR_SPACE, (f outcap inb).2.1, (f outcap inb).2.2) ∧
      xmlEncOutputChunk f outcap inb =
        ( XML_ENC_ERR_SPACE, (f outcap inb).2.1, (f outcap inb).2.2)) ∧
    ((f outcap inb).2.2.length = 0 →
      xmlEncInputChunk f outcap inb =
        ( XML_ENC_ERR_SUCCESS, (f outcap inb).2.1, (f outcap inb).2.2) ∧
      xmlEncOutputChunk f outcap inb =
        ( XML_ENC_ERR_INTERNAL, (f outcap inb).2.1, (f outcap inb).2.2)) := by
  constructor
  · intro hout
    unfold xmlEncInputChunk xmlEncOutputChunk
    simp only []
    rw [if_pos hret, if_pos hcons, if_pos hout]
    rw [if_neg (by decide : ¬ XML_ENC_ERR_SPACE = XML_ENC_ERR_PARTIAL)]
    exact ⟨rfl, rfl⟩
  · intro hout
    unfold xmlEncInputChunk xmlEncOutputChunk
    simp only []
    rw [if_pos hret, if_pos hcons]
    rw [if_neg (show ¬ 0 < (f outcap inb).2.2.length by omega)]
    exact ⟨rfl, rfl⟩

/-- C1 witness: a handler returning `(0, 0, [65])` (one output byte,
nothing consumed) on a two-byte input satisfies the hypotheses and is
classified `SPACE` by both chunk functions. -/
theorem C1_chunk_classification_witness :
    0 ≤ ((fun (_ : Nat) (_ : List Nat) => ((0 : Int), 0, [65])) 4 [1, 2]).1 ∧
    ((fun (_ : Nat) (_ : List Nat) => ((0 : Int), 0, [65])) 4 [1, 2]).2.1 <
      ([1, 2] : List Nat).length ∧
    ((0 < ((fun (_ : Nat) (_ : List Nat) => ((0 : Int), 0, [65])) 4 [1, 2]).2.2.length →
      xmlEncInputChunk (fun _ _ => ((0 : Int), 0, [65])) 4 [1, 2] =
        ( XML_ENC_ERR_SPACE, 0, [65]) ∧
      xmlEncOutputChunk (fun _ _ => ((0 : Int), 0, [65])) 4 [1, 2] =
        ( XML_ENC_ERR_SPACE, 0, [65])) ∧
     (((fun (_ : Nat) (_ : List Nat) => ((0 : Int), 0, [65])) 4 [1, 2]).2.2.length = 0 →
      xmlEncInputChunk (fun _ _ => ((0 : Int), 0, [65])) 4 [1, 2] =
        ( XML_ENC_ERR_SUCCESS, 0, [65]) ∧
      xmlEncOutputChunk (fun _ _ => ((0 : Int), 0, [65])) 4 [1, 2] =
        ( XML_ENC_ERR_INTERNAL, 0, [65]))) :=
  ⟨by decide, by decide,
   C1_chunk_classification (fun _ _ => ((0 : Int), 0, [65])) 4 [1, 2]
     (by decide) (by decide)⟩

/-- C3: encoding the UTF-8 source "A€B" (`41 E2 82 AC 42`) to ASCII through
`xmlCharEncOutFunc` with the `UTF8Toascii` handler produces exactly the
bytes of "A&#8364;B", returns the produced count 9 (success), and consumes
all five source bytes: the INPUT error for € triggers decoding of exactly
that one code point, formatting as `&#8364;`, re-encoding through the same
handler, and resumption. -/
theorem C3_escape_fallback :
    xmlCharEncOutFunc 10 UTF8Toascii ⟨[], 0⟩
        ⟨[0x41, 0xE2, 0x82, 0xAC, 0x42], 5⟩ 0 =
      (9, ⟨[0x41, 0x26, 0x23, 0x38, 0x33, 0x36, 0x34, 0x3B, 0x42], 30⟩,
       ⟨[], 5⟩) := by
  decide

/-- The complete set of byte patterns recognized by `xmlDetectCharEncoding`
(encoding.c:869-915), used to state that every input matching none of them
detects as `NONE`. -/
def detectionPattern (b : List Nat) : Prop :=
  (b.length ≥ 4 ∧
    ((b[0]! = 0x00 ∧ b[1]! = 0x00 ∧ b[2]! = 0x00 ∧ b[3]! = 0x3C) ∨
     (b[0]! = 0x3C ∧ b[1]! = 0x00 ∧ b[2]! = 0x00 ∧ b[3]! = 0x00) ∨
     (b[0]! = 0x00 ∧ b[1]! = 0x00 ∧ b[2]! = 0x3C ∧ b[3]! = 0x00) ∨
     (b[0]! = 0x00 ∧ b[1]! = 0x3C ∧ b[2]! = 0x00 ∧ b[3]! = 0x00) ∨
     (b[0]! = 0x4C ∧ b[1]! = 0x6F ∧ b[2]! = 0xA7 ∧ b[3]! = 0x94) ∨
     (b[0]! = 0x3C ∧ b[1]! = 0x3F ∧ b[2]! = 0x78 ∧ b[3]! = 0x6D) ∨
     (b[0]! = 0x3C ∧ b[1]! = 0x00 ∧ b[2]! = 0x3F ∧ b[3]! = 0x00) ∨
     (b[0]! = 0x00 ∧ b[1]! = 0x3C ∧ b[2]! = 0x00 ∧ b[3]! = 0x3F))) ∨
  (b.length ≥ 3 ∧ b[0]! = 0xEF ∧ b[1]! = 0xBB ∧ b[2]! = 0xBF) ∨
  (b.length ≥ 2 ∧ ((b[0]! = 0xFE ∧ b[1]! = 0xFF) ∨ (b[0]! = 0xFF ∧ b[1]! = 0xFE)))

/-- C4: detection is a pure function of the leading bytes with the four
given test vectors; every input of fewer than 2 bytes and every input
matching no pattern yields the `NONE` sentinel. -/
theorem C4_detection :
    xmlDetectCharEncoding [0x3C, 0x3F, 0x78, 0x6D] = .UTF8 ∧
    xmlDetectCharEncoding [0xFE, 0xFF] = .UTF16BE ∧
    xmlDetectCharEncoding [0xFF, 0xFE] = .UTF16LE ∧
    xmlDetectCharEncoding [0x00, 0x00, 0x00, 0x3C] = .UCS4BE ∧
    (∀ b : List Nat, b.length < 2 → xmlDetectCharEncoding b = .NONE) ∧
    (∀ b : List Nat, ¬ detectionPattern b → xmlDetectCharEncoding b = .NONE) := by
  refine ⟨by decide, by decide, by decide, by decide, ?_, ?_⟩
  · intro b hb
    unfold xmlDetectCharEncoding xmlDetectCharEncodingBOM
    rw [if_neg (by omega)]
    rw [if_neg (fun h => absurd h.1 (by omega))]
    rw [if_neg (fun h => absurd h.1 (by omega))]
    rw [if_neg (fun h => absurd h.1 (by omega))]
  · intro b hp
    unfold xmlDetectCharEncoding xmlDetectCharEncodingBOM
    by_cases hlen4 : b.length ≥ 4
    · rw [if_pos hlen4]
      rw [if_neg (fun h => hp (Or.inl ⟨hlen4, Or.inl h⟩))]
      rw [if_neg (fun h => hp (Or.inl ⟨hlen4, Or.inr (Or.inl h)⟩))]
      rw [if_neg (fun h => hp (Or.inl ⟨hlen4, Or.inr (Or.inr (Or.inl h))⟩))]
      rw [if_neg (fun h => hp (Or.inl ⟨hlen4, Or.inr (Or.inr (Or.inr (Or.inl h)))⟩))]
      rw [if_neg (fun h => hp (Or.inl ⟨hlen4,
        Or.inr (Or.inr (Or.inr (Or.inr (Or.inl h))))⟩))]
      rw [if_neg (fun h => hp (Or.inl ⟨hlen4,
        Or.inr (Or.inr (Or.inr (Or.inr (Or.inr (Or.inl h)))))⟩))]
      rw [if_neg (fun h => hp (Or.inl ⟨hlen4,
        Or.inr (Or.inr (Or.inr (Or.inr (Or.inr (Or.inr (Or.inl h))))))⟩))]
      rw [if_neg (fun h => hp (Or.inl ⟨hlen4,
        Or.inr (Or.inr (Or.inr (Or.inr (Or.inr (Or.inr (Or.inr h))))))⟩))]
      rw [if_neg (fun h => hp (Or.inr (Or.inl h)))]
      rw [if_neg (fun h => hp (Or.inr (Or.inr ⟨h.1, Or.inl h.2⟩)))]
      rw [if_neg (fun h => hp (Or.inr (Or.inr ⟨h.1, Or.inr h.2⟩)))]
    · rw [if_neg hlen4]
      rw [if_neg (fun h => hp (Or.inr (Or.inl h)))]
      rw [if_neg (fun h => hp (Or.inr (Or.inr ⟨h.1, Or.inl h.2⟩)))]
      rw [if_neg (fun h => hp (Or.inr (Or.inr ⟨h.1, Or.inr h.2⟩)))]

/-- C4 witness: the no-pattern clause applied to the 1-byte input `[0x42]`
and to the patternless 4-byte input `[0x41, 0x41, 0x41, 0x41]`. -/
theorem C4_detection_witness :
    xmlDetectCharEncoding [0x42] = .NONE ∧
    xmlDetectCharEncoding [0x41, 0x41, 0x41, 0x41] = .NONE :=
  ⟨C4_detection.2.2.2.2.1 [0x42] (by decide),
   C4_detection.2.2.2.2.2 [0x41, 0x41, 0x41, 0x41]
     (by unfold detectionPattern; decide)⟩

/-- C5: the alias registry's case rules — `add` stores the alias uppercased
(so adding "LATIN1" or "latin1" both store "LATIN1") and `lookup`
uppercases its argument, so `lookup "latin1"` finds the entry; `remove`
compares case-sensitively against the stored uppercased spelling, so
`remove "LATIN1"` succeeds (after which lookup fails), while
`remove "latin1"` (differing in case from the stored spelling) fails. -/
theorem C5_alias_case_rules :
    (xmlGetEncodingAlias (xmlAddEncodingAlias [] "ISO-8859-1" "LATIN1")
        "latin1" = some "ISO-8859-1") ∧
    (xmlGetEncodingAlias (xmlAddEncodingAlias [] "ISO-8859-1" "latin1")
        "latin1" = some "ISO-8859-1") ∧
    (xmlDelEncodingAlias (xmlAddEncodingAlias [] "ISO-8859-1" "LATIN1")
        "LATIN1" = some []) ∧
    (xmlGetEncodingAlias [] "latin1" = none) ∧
    (xmlDelEncodingAlias (xmlAddEncodingAlias [] "ISO-8859-1" "LATIN1")
        "latin1" = none) := by
  refine ⟨?_, ?_, ?_, ?_, ?_⟩ <;> decide

/-- C8: registering a handler when the dynamic registry already holds
`MAX_ENCODING_HANDLERS` (50) entries is a no-op failure (the registry is
unchanged and the handler is not retained — the C code frees it), and any
sequence of registrations starting from a registry within capacity never
grows it beyond 50 entries. -/
theorem C8_registry_capacity {H : Type} (tbl : List H) (handler : H)
    (hfull : tbl.length = MAX_ENCODING_HANDLERS) :
    xmlRegisterCharEncodingHandler tbl handler = (tbl, false) ∧
    (∀ (tbl2 : List H) (hs : List H), tbl2.length ≤ MAX_ENCODING_HANDLERS →
      (hs.foldl (fun t hh => (xmlRegisterCharEncodingHandler t hh).1)
        tbl2).length ≤ MAX_ENCODING_HANDLERS) := by
  constructor
  · unfold xmlRegisterCharEncodingHandler
    rw [if_pos (by omega)]
  · intro tbl2 hs
    induction hs generalizing tbl2 with
    | nil =>
      intro hle
      simpa using hle
    | cons hh hs ih =>
      intro hle
      simp only [List.foldl_cons]
      apply ih
      by_cases hc : tbl2.length ≥ MAX_ENCODING_HANDLERS
      · unfold xmlRegisterCharEncodingHandler
        rw [if_pos hc]
        exact hle
      · unfold xmlRegisterCharEncodingHandler
        rw [if_neg hc]
        simp only [List.length_append, List.length_cons, List.length_nil]
        unfold MAX_ENCODING_HANDLERS at *
        omega

/-- C8 witness: a full registry of 50 entries rejects a new handler
unchanged, and folding registrations keeps the bound. -/
theorem C8_registry_capacity_witness :
    (List.replicate 50 (0 : Nat)).length = MAX_ENCODING_HANDLERS ∧
    (xmlRegisterCharEncodingHandler (List.replicate 50 (0 : Nat)) 7 =
      (List.replicate 50 0, false) ∧
    (∀ (tbl2 : List Nat) (hs : List Nat),
      tbl2.length ≤ MAX_ENCODING_HANDLERS →
      (hs.foldl (fun t hh => (xmlRegisterCharEncodingHandler t hh).1)
        tbl2).length ≤ MAX_ENCODING_HANDLERS)) :=
  ⟨by decide, C8_registry_capacity (List.replicate 50 (0 : Nat)) 7 (by decide)⟩

/-- C10: every call to the built-in ASCII-to-UTF-8 decoder with output
capacity at most 5 consumes zero bytes, produces zero bytes and returns 0,
whatever the input; with capacity 6 and a non-empty ASCII input the decoder
makes progress (one byte per call). -/
theorem C10_ascii_min_capacity (outcap : Nat) (inb : List Nat)
    (h : outcap ≤ 5) :
    asciiToUTF8 outcap inb = (0, 0, []) ∧
    (∀ (c : Nat) (rest : List Nat), c < 0x80 →
      asciiToUTF8 6 (c :: rest) = (1, 1, [c])) := by
  constructor
  · unfold asciiToUTF8
    cases inb with
    | nil =>
      rw [asciiToUTF8go]
      rfl
    | cons c rest =>
      rw [asciiToUTF8go]
      rw [if_neg (by simp; omega)]
      rfl
  · intro c rest hc
    unfold asciiToUTF8
    rw [asciiToUTF8go]
    rw [if_pos (by simp)]
    rw [if_neg (by simp)]
    rw [if_pos hc]
    cases rest with
    | nil =>
      rw [asciiToUTF8go]
      rfl
    | cons d rest2 =>
      rw [asciiToUTF8go]
      rw [if_neg (by simp)]
      rfl

/-- C10 witness: capacity 4 with a non-empty all-ASCII input consumes and
produces nothing; capacity 6 makes progress. -/
theorem C10_ascii_min_capacity_witness :
    (4 : Nat) ≤ 5 ∧
    (asciiToUTF8 4 [65, 66, 67] = (0, 0, []) ∧
     (∀ (c : Nat) (rest : List Nat), c < 0x80 →
       asciiToUTF8 6 (c :: rest) = (1, 1, [c]))) :=
  ⟨by decide, C10_ascii_min_capacity 4 [65, 66, 67] (by decide)⟩

theorem asciiToUTF8_cap_le5 (outcap : Nat) (inb : List Nat) (h : outcap ≤ 5) :
    asciiToUTF8 outcap inb = (0, 0, []) := by
  unfold asciiToUTF8
  cases inb with
  | nil =>
    rw [asciiToUTF8go]
    rfl
  | cons c rest =>
    rw [asciiToUTF8go]
    rw [if_neg (by simp; omega)]
    rfl

/-- C6 counterexample: with a 4-byte destination the first conversion call
on a 10,000-byte all-ASCII source consumes 0 bytes, not 4 (the `asciiToUTF8`
loop requires `produced + 5 < outlen`), and is classified `SUCCESS` (via
`PARTIAL`), so repeated calls never make progress. -/
theorem C6_counterexample :
    xmlEncInputChunk asciiToUTF8 4 (List.replicate 10000 65) =
      ( XML_ENC_ERR_SUCCESS, 0, []) ∧ (0 : Nat) ≠ 4 := by
  constructor
  · unfold xmlEncInputChunk
    simp only [asciiToUTF8_cap_le5 4 (List.replicate 10000 65) (by omega)]
    norm_num
  · decide

theorem asciiToUTF8_9 (rem : List Nat) (h : ∀ x ∈ rem, x < 0x80) :
    asciiToUTF8 9 rem =
      (Int.ofNat (min 4 rem.length), min 4 rem.length, rem.take 4) := by
  rcases rem with _ | ⟨a, _ | ⟨b, _ | ⟨c, _ | ⟨d, rest⟩⟩⟩⟩
  · simp [asciiToUTF8, asciiToUTF8go]
  · have ha := h a (by simp)
    simp [asciiToUTF8, asciiToUTF8go, ha]
  · have ha := h a (by simp)
    have hb := h b (by simp)
    simp [asciiToUTF8, asciiToUTF8go, ha, hb]
  · have ha := h a (by simp)
    have hb := h b (by simp)
    have hc := h c (by simp)
    simp [asciiToUTF8, asciiToUTF8go, ha, hb, hc]
  · have ha := h a (by simp)
    have hb := h b (by simp)
    have hc := h c (by simp)
    have hd := h d (by simp)
    simp [asciiToUTF8, asciiToUTF8go, ha, hb, hc, hd]
    cases rest with
    | nil => simp [asciiToUTF8go]
    | cons e r => simp [asciiToUTF8go]

theorem xmlEncInputChunk_passthrough
    (f : Nat → List Nat → Int × Nat × List Nat) (outcap : Nat)
    (inb : List Nat) :
    (xmlEncInputChunk f outcap inb).2 = (f outcap inb).2 := rfl

theorem list_take_add (l : List Nat) (m n : Nat) :
    l.take (m + n) = l.take m ++ (l.drop m).take n := by
  induction m generalizing l with
  | zero => simp
  | succ m ih =>
    cases l with
    | nil => simp
    | cons a t =>
      simp only [Nat.succ_add, List.take_succ_cons, List.drop_succ_cons,
        List.cons_append, ih]

theorem convDrive_ascii9 (k : Nat) :
    ∀ rem : List Nat, (∀ x ∈ rem, x < 0x80) →
      convDrive asciiToUTF8 9 k rem = (rem.take (4 * k), rem.drop (4 * k)) := by
  induction k with
  | zero => simp [convDrive]
  | succ k ih =>
    intro rem h
    have hc1 : (xmlEncInputChunk asciiToUTF8 9 rem).2.1 = min 4 rem.length := by
      rw [xmlEncInputChunk_passthrough, asciiToUTF8_9 rem h]
    have hc2 : (xmlEncInputChunk asciiToUTF8 9 rem).2.2 = rem.take 4 := by
      rw [xmlEncInputChunk_passthrough, asciiToUTF8_9 rem h]
    have hdrop : rem.drop (min 4 rem.length) = rem.drop 4 := by
      rcases Nat.le_total 4 rem.length with hle | hle
      · rw [Nat.min_eq_left hle]
      · rw [Nat.min_eq_right hle, List.drop_of_length_le (le_refl _),
          List.drop_of_length_le hle]
    rw [convDrive]
    simp only [hc1, hc2, hdrop]
    rw [ih (rem.drop 4) (fun x hx => h x (List.mem_of_mem_drop hx))]
    simp only [List.drop_drop]
    rw [show 4 * (k + 1) = 4 + 4 * k by ring]
    rw [list_take_add rem 4 (4 * k)]

/-- C6 amended: converting a 10,000-byte all-ASCII source across repeated
conversion calls through `xmlEncInputChunk` with a fresh 9-byte destination
per call consumes exactly 4 source bytes on every call with at least 4
bytes remaining, and after 2500 calls all 10,000 bytes are consumed with
the concatenation of the per-call outputs equal to the source (no byte
duplicated or dropped). -/
theorem C6_space_chunking (b : List Nat) (hlen : b.length = 10000)
    (hascii : ∀ x ∈ b, x < 0x80) :
    (∀ rem : List Nat, (∀ x ∈ rem, x < 0x80) → 4 ≤ rem.length →
      (xmlEncInputChunk asciiToUTF8 9 rem).2.1 = 4) ∧
    convDrive asciiToUTF8 9 2500 b = (b, []) := by
  constructor
  · intro rem h hr
    rw [xmlEncInputChunk_passthrough, asciiToUTF8_9 rem h]
    simp only []
    omega
  · rw [convDrive_ascii9 2500 b hascii]
    rw [show 4 * 2500 = 10000 by norm_num, ← hlen, List.take_length,
      List.drop_length]

/-- C6 amended witness: the all-`'A'` source of length 10,000. -/
theorem C6_space_chunking_witness :
    (List.replicate 10000 65).length = 10000 ∧
    ((∀ rem : List Nat, (∀ x ∈ rem, x < 0x80) → 4 ≤ rem.length →
       (xmlEncInputChunk asciiToUTF8 9 rem).2.1 = 4) ∧
     convDrive asciiToUTF8 9 2500 (List.replicate 10000 65) =
       (List.replicate 10000 65, [])) :=
  ⟨by rw [List.length_replicate],
   C6_space_chunking (List.replicate 10000 65) (by rw [List.length_replicate])
    (fun x hx => by rcases List.eq_of_mem_replicate hx with rfl; decide)⟩

/-- C9 counterexample: encoding the lone continuation byte `0x80` to ASCII
through `xmlCharEncOutFunc`: the handler reports an INPUT error, the escape
fallback fails to decode the offending position as one UTF-8 code point,
and the call returns the INPUT error (`XML_ENC_ERR_INPUT`), not the
INTERNAL error the claim asserts. -/
theorem C9_counterexample :
    (xmlCharEncOutFunc 10 UTF8Toascii ⟨[], 0⟩ ⟨[0x80], 1⟩ 0).1 =
      XML_ENC_ERR_INPUT ∧
    XML_ENC_ERR_INPUT ≠ XML_ENC_ERR_INTERNAL := by
  constructor
  · decide
  · decide

/-- C9 amended: when the single offending source position cannot be decoded
as one UTF-8 code point (here: any source starting with a continuation
byte, which also makes the ASCII handler fail with INPUT immediately), the
conversion call fails hard with the original `INPUT` error — `INTERNAL` is
returned only when the re-encoding of the character reference itself fails
or is not fully consumed. -/
theorem C9_input_error_propagates (b0 : Nat) (rest : List Nat)
    (sz fuel : Nat) (h1 : 0x80 ≤ b0) (h2 : b0 < 0xC0) :
    (xmlCharEncOutFunc (fuel + 1) UTF8Toascii ⟨[], 0⟩ ⟨b0 :: rest, sz⟩ 0).1 =
      XML_ENC_ERR_INPUT := by
  have hn1 : ¬ b0 < 0x80 := by omega
  have hpar : utf8LeadParse b0 = none := by
    unfold utf8LeadParse
    rw [if_neg hn1, if_pos h2]
  have hga : ∀ w, UTF8Toascii w (b0 :: rest) = ( XML_ENC_ERR_INPUT, 0, []) := by
    intro w
    unfold UTF8Toascii
    show UTF8ToasciiGo (b0 :: rest).length w [] 0 (b0 :: rest) = _
    simp only [List.length_cons]
    rw [UTF8ToasciiGo]
    simp only [hpar]
  have hchunk : ∀ w, xmlEncOutputChunk UTF8Toascii w (b0 :: rest) =
      ( XML_ENC_ERR_INPUT, 0, []) := by
    intro w
    unfold xmlEncOutputChunk
    simp only [hga w]
    norm_num [XML_ENC_ERR_INPUT, XML_ENC_ERR_PARTIAL]
  have hget : xmlGetUTF8Char (b0 :: rest) = none := by
    rw [xmlGetUTF8Char.eq_def]
    simp only []
    rw [if_neg hn1, if_pos h2]
  rw [xmlCharEncOutFunc]
  simp only [hchunk, xmlBufferShrink, List.drop_zero, hget]
  norm_num [XML_ENC_ERR_INPUT, XML_ENC_ERR_SPACE]

/-- C9 amended witness: the theorem applied to the source `[0x80]`. -/
theorem C9_input_error_propagates_witness :
    0x80 ≤ 0x80 ∧ 0x80 < 0xC0 ∧
    (xmlCharEncOutFunc 10 UTF8Toascii ⟨[], 0⟩ ⟨[0x80], 1⟩ 0).1 =
      XML_ENC_ERR_INPUT :=
  ⟨by decide, by decide,
   C9_input_error_propagates 0x80 [] 1 9 (by decide) (by decide)⟩
